import Mathlib

/-! # The t-digest scalar aggregator of `aggregate_tdigest.cc`

A shallow embedding of `TDigestImpl<ArrowType>` (its constructor, `Consume`,
`MergeFrom` and `Finalize`) and of the construction path (`TDigestInitState`,
`TDigestInit`), and theorems about them.

* `CType`, the element type of the template, is the type parameter `V`.
* `double` is `Float`; no floating-point arithmetic is evaluated, the
  aggregator only moves doubles around.
* `int64_t count` is an `Int`. Signed overflow is undefined behaviour in C++,
  so the model describes the defined executions.
* The sketch itself (`arrow::internal::TDigest`, `arrow/util/tdigest.h`) is a
  collaborator whose code is not part of the sources at hand; the aggregator is
  embedded over an arbitrary implementation of its interface (`TDigest V D`).
-/

namespace Arrow

/-! ## Collaborators -/

/-- The outcomes of `arrow::Status` that this kernel can produce or propagate. -/
inductive Status where
  | OK
  | NotImplemented
  | OutOfMemory
  deriving DecidableEq, Repr

/-- Modelled from the spec: `TDigestOptions`, whose declaration
(`arrow/compute/api_aggregate.h`) is not among the sources. The fields are the
ones section 6 of the specification lists and the kernel reads. -/
structure TDigestOptions where
  q : List Float
  delta : Float
  buffer_size : Nat
  skip_nulls : Bool
  min_count : Nat

/-- The interface of `arrow::internal::TDigest` that the kernel uses, over a
carrier `D` of digest values. The kernel is embedded for every implementation.
`NanAdd` takes the element as the kernel passes it (a `CType`). -/
structure TDigest (V D : Type) where
  /-- The constructor `TDigest(delta, buffer_size)`. -/
  create : Float → Nat → D
  NanAdd : D → V → D
  Merge : D → D → D
  is_empty : D → Bool
  Quantile : D → Float → Float

/-- A validity bit at an absolute bit position of a bitmap buffer. Positions
beyond the buffer read as unset. -/
def GetBit (bitmap : List Bool) (i : Nat) : Bool :=
  bitmap.getD i false

/-- The number of set bits in the window `[offset, offset + length)`. -/
def CountSetBits (bitmap : List Bool) (offset length : Nat) : Nat :=
  ((List.range length).filter (fun i => GetBit bitmap (offset + i))).length

/-- Modelled from the spec: the Validity Run Visitor (`arrow/util/bit_run_reader.h`
is not among the sources). `SetBitRunsFrom bitmap offset n pos` is the sequence
of `(start_position, run_length)` pairs of the maximal contiguous ranges of set
bits among the `n` window positions `pos, pos + 1, ...`; positions are relative
to the window start `offset`. -/
def SetBitRunsFrom (bitmap : List Bool) (offset : Nat) : Nat → Nat → List (Nat × Nat)
  | 0, _ => []
  | n + 1, pos =>
    if GetBit bitmap (offset + pos) then
      match SetBitRunsFrom bitmap offset n (pos + 1) with
      | (p, l) :: rest =>
        if p = pos + 1 then (pos, l + 1) :: rest else (pos, 1) :: (p, l) :: rest
      | [] => [(pos, 1)]
    else SetBitRunsFrom bitmap offset n (pos + 1)

/-- Modelled from the spec: `VisitSetBitRunsVoid(bitmap, offset, length, visit)`
calls `visit(pos, len)` once per maximal run of set bits of the window, in
ascending order. The callback mutates captured state, here threaded as `σ`. -/
def VisitSetBitRunsVoid {σ : Type} (bitmap : List Bool) (offset length : Nat)
    (visit : σ → Nat → Nat → σ) (s : σ) : σ :=
  (SetBitRunsFrom bitmap offset length 0).foldl (fun acc r => visit acc r.1 r.2) s

/-- The part of `ArrayData` the kernel reads: the validity bitmap `buffers[0]`,
the values buffer `buffers[1]`, and the window `offset`, `length`. -/
structure ArrayData (V : Type) where
  bitmap : List Bool
  values : List V
  offset : Nat
  length : Nat

/-- The `data.GetNullCount()` call: the number of unset validity bits of the window. -/
def ArrayData.GetNullCount {V : Type} (data : ArrayData V) : Nat :=
  data.length - CountSetBits data.bitmap data.offset data.length

/-- The `data.GetValues<CType>(1)` call: the values buffer advanced by `offset`. -/
def ArrayData.GetValues {V : Type} (data : ArrayData V) : List V :=
  data.values.drop data.offset

/-- A scalar: a boxed value and its validity flag. -/
structure Scalar (V : Type) where
  value : V
  is_valid : Bool

/-- The `batch[0]` datum: a dense array or a broadcast scalar. -/
inductive Datum (V : Type) where
  | array (data : ArrayData V)
  | scalar (s : Scalar V)

/-- The `Datum::null_count()` call: the null count of the array, or 1 for an
invalid scalar and 0 for a valid one. -/
def Datum.null_count {V : Type} : Datum V → Nat
  | .array data => data.GetNullCount
  | .scalar s => if s.is_valid then 0 else 1

/-- An `ExecBatch` with its single column `batch[0]` and logical `length`. -/
structure ExecBatch (V : Type) where
  value : Datum V
  length : Nat

/-- The memory side of `KernelContext`. An allocation either fails (`none`) or
yields a fresh buffer whose content, slot by slot, is whatever the allocator
left there. -/
structure KernelContext where
  Allocate : Nat → Option (Nat → Float)
  AllocateBitmap : Nat → Option (Nat → Bool)

/-- The output `ArrayData` of type `float64()` that `Finalize` builds:
`buffers[0]` is `none` while it is the null pointer. -/
structure OutData where
  length : Nat
  null_count : Nat
  validity : Option (List Bool)
  values : List Float

/-! ## The aggregator -/

/-- The state of `TDigestImpl<ArrowType>`. -/
structure TDigestImpl (D : Type) where
  options : TDigestOptions
  tdigest : D
  count : Int
  all_valid : Bool

namespace TDigestImpl

variable {V D : Type}

/-- The constructor `TDigestImpl(options)`. -/
def mk_from (ops : TDigest V D) (options : TDigestOptions) : TDigestImpl D :=
  { options := options
    tdigest := ops.create options.delta options.buffer_size
    count := 0
    all_valid := true }

/-- The callback given to the run visitor in `Consume`:
`for (i = 0; i < len; ++i) tdigest.NanAdd(values[pos + i])`. -/
def addRun [Inhabited V] (ops : TDigest V D) (values : List V) (d : D) (pos len : Nat) : D :=
  (List.range len).foldl (fun acc i => ops.NanAdd acc (values.getD (pos + i) default)) d

/-- The scalar loop of `Consume`:
`for (i = 0; i < batch.length; i++) tdigest.NanAdd(value)`. -/
def addRepeated (ops : TDigest V D) (value : V) (d : D) (n : Nat) : D :=
  (List.range n).foldl (fun acc _ => ops.NanAdd acc value) d

/-- The method `Consume(KernelContext*, const ExecBatch& batch)`. The test
`batch[0].is_array()` is the match on the datum. -/
def Consume [Inhabited V] (ops : TDigest V D) (self : TDigestImpl D) (batch : ExecBatch V) :
    Status × TDigestImpl D :=
  if !self.all_valid then (Status.OK, self)
  else if !self.options.skip_nulls && decide (batch.value.null_count > 0) then
    (Status.OK, { self with all_valid := false })
  else
    match batch.value with
    | .array data =>
      let values := data.GetValues
      if data.length > data.GetNullCount then
        let self1 := { self with count := self.count + ((data.length : Int) - data.GetNullCount) }
        (Status.OK,
          { self1 with
            tdigest := VisitSetBitRunsVoid data.bitmap data.offset data.length
              (fun d pos len => addRun ops values d pos len) self1.tdigest })
      else (Status.OK, self)
    | .scalar s =>
      let value := s.value
      if s.is_valid then
        let self1 := { self with count := self.count + 1 }
        (Status.OK, { self1 with tdigest := addRepeated ops value self1.tdigest batch.length })
      else (Status.OK, self)

/-- The method `MergeFrom(KernelContext*, KernelState&& src)`. -/
def MergeFrom (ops : TDigest V D) (self other : TDigestImpl D) : Status × TDigestImpl D :=
  if !self.all_valid || !other.all_valid then
    (Status.OK, { self with all_valid := false })
  else
    let self1 := { self with tdigest := ops.Merge self.tdigest other.tdigest }
    (Status.OK, { self1 with count := self1.count + other.count })

/-- The quantile loop of `Finalize`:
`for (i = 0; i < out_length; ++i) out_buffer[i] = tdigest.Quantile(options.q[i])`. -/
def fillQuantiles (ops : TDigest V D) (d : D) (q : List Float) (out_buffer : List Float)
    (out_length : Nat) : List Float :=
  (List.range out_length).foldl
    (fun buf i => buf.set i (ops.Quantile d (q.getD i 0.0))) out_buffer

/-- The method `Finalize(KernelContext* ctx, Datum* out)`. The out-parameter is
passed in as `out` and returned next to the status: it is replaced only by the
final assignment `*out = Datum(std::move(out_data))`. -/
def Finalize (ops : TDigest V D) (self : TDigestImpl D) (ctx : KernelContext)
    (out : Option OutData) : Status × Option OutData :=
  let out_length := self.options.q.length
  match ctx.Allocate (out_length * 8) with
  | none => (Status.OutOfMemory, out)
  | some fresh =>
    let out_buffer := (List.range out_length).map fresh
    if ops.is_empty self.tdigest || !self.all_valid
        || decide (self.count < (self.options.min_count : Int)) then
      match ctx.AllocateBitmap out_length with
      | none => (Status.OutOfMemory, out)
      | some freshBits =>
        let bitmap := ((List.range out_length).map freshBits).map (fun _ => false)
        let out_buffer := out_buffer.map (fun _ => (0.0 : Float))
        (Status.OK,
          some { length := out_length, null_count := out_length,
                 validity := some bitmap, values := out_buffer })
    else
      let out_buffer := fillQuantiles ops self.tdigest self.options.q out_buffer out_length
      (Status.OK,
        some { length := out_length, null_count := 0, validity := none, values := out_buffer })

end TDigestImpl

/-! ## Construction -/

/-- The visitor `TDigestInitState`. The element kind `in_type` ranges over a type
`T` of kinds; `state` is the `unique_ptr<KernelState>`, `none` while null. -/
structure TDigestInitState (T D : Type) where
  state : Option (TDigestImpl D)
  in_type : T
  options : TDigestOptions

namespace TDigestInitState

variable {T V D : Type}

/-- The constructor `TDigestInitState(ctx, in_type, options)`. -/
def mk_from (in_type : T) (options : TDigestOptions) : TDigestInitState T D :=
  { state := none, in_type := in_type, options := options }

/-- The three `Visit` overloads as `VisitTypeInline(in_type, this)` selects them
(`arrow/visitor_inline.h` and the type traits are not among the sources, so the
two facts the selection rests on are parameters): the overload for
`HalfFloatType` when the kind is the half-precision float, the template overload
when `is_number_type<Type>::value` holds, the `DataType` overload otherwise. -/
def Visit (is_half_float is_number_type : T → Bool) (ops : TDigest V D)
    (self : TDigestInitState T D) : Status × TDigestInitState T D :=
  if is_half_float self.in_type then (Status.NotImplemented, self)
  else if is_number_type self.in_type then
    (Status.OK, { self with state := some (TDigestImpl.mk_from ops self.options) })
  else (Status.NotImplemented, self)

/-- The method `Create()`: `RETURN_NOT_OK(VisitTypeInline(in_type, this))`, then
`return std::move(state)`. -/
def Create (is_half_float is_number_type : T → Bool) (ops : TDigest V D)
    (self : TDigestInitState T D) : Except Status (Option (TDigestImpl D)) :=
  match Visit is_half_float is_number_type ops self with
  | (Status.OK, self1) => Except.ok self1.state
  | (st, _) => Except.error st

end TDigestInitState

/-- The function `TDigestInit(ctx, args)`: builds the visitor for the kind of the
first input and the options, and returns `visitor.Create()`. -/
def TDigestInit {T V D : Type} (is_half_float is_number_type : T → Bool) (ops : TDigest V D)
    (in_type : T) (options : TDigestOptions) : Except Status (Option (TDigestImpl D)) :=
  TDigestInitState.Create is_half_float is_number_type ops
    (TDigestInitState.mk_from in_type options)

/-! ## Definitions used to state the properties -/

/-- Whether window position `i` of the array holds a valid (non-null) entry. -/
def ArrayData.IsValid {V : Type} (data : ArrayData V) (i : Nat) : Bool :=
  GetBit data.bitmap (data.offset + i)

/-- The entry stored at window position `i` of the array. -/
def ArrayData.Value {V : Type} [Inhabited V] (data : ArrayData V) (i : Nat) : V :=
  data.values.getD (data.offset + i) default

/-- The values at the valid positions of the array, in ascending position order. -/
def ArrayData.validValues {V : Type} [Inhabited V] (data : ArrayData V) : List V :=
  ((List.range data.length).filter data.IsValid).map data.Value

/-- A fully-null output of `n` slots: every validity bit cleared, every backing
value `0.0`, `null_count = n`. -/
def OutData.allNull (n : Nat) : OutData :=
  { length := n, null_count := n,
    validity := some (List.replicate n false), values := List.replicate n 0.0 }

/-- A history of an aggregation: states are built from fresh ones (the
constructor) by `Consume` calls and by `MergeFrom` calls, in any tree shape. -/
inductive History (V : Type) where
  | fresh : History V
  | consume : History V → ExecBatch V → History V
  | merge : History V → History V → History V

/-- The state a history ends in, all fresh states being built from `options`. -/
def History.run {V D : Type} [Inhabited V] (ops : TDigest V D) (options : TDigestOptions) :
    History V → TDigestImpl D
  | .fresh => TDigestImpl.mk_from ops options
  | .consume h b => (TDigestImpl.Consume ops (History.run ops options h) b).2
  | .merge h1 h2 =>
    (TDigestImpl.MergeFrom ops (History.run ops options h1) (History.run ops options h2)).2

/-- Whether some batch consumed in the history contains a null. -/
def History.sawNull {V : Type} : History V → Bool
  | .fresh => false
  | .consume h b => History.sawNull h || decide (b.value.null_count > 0)
  | .merge h1 h2 => History.sawNull h1 || History.sawNull h2

/-- A recording implementation of the digest interface over `Int` elements: the
digest is the sequence of the values fed to it. It serves to run the kernel on
concrete inputs; every theorem below holds for all implementations. -/
def recDigest : TDigest Int (List Int) :=
  { create := fun _ _ => []
    NanAdd := fun d v => d ++ [v]
    Merge := fun a b => a ++ b
    is_empty := fun d => d.isEmpty
    Quantile := fun d p => if p ≤ 0.0 then Float.ofInt (d.headD 0) else Float.ofInt (d.getLastD 0) }

/-- An allocator that always succeeds and hands out buffers holding stale data. -/
def okCtx : KernelContext :=
  { Allocate := fun _ => some (fun _ => 1.5)
    AllocateBitmap := fun _ => some (fun _ => true) }

/-- Sample options: three quantiles, `min_count = 5`, nulls skipped. -/
def opts5 : TDigestOptions :=
  { q := [0.1, 0.5, 0.9], delta := 0.01, buffer_size := 500, skip_nulls := true, min_count := 5 }

/-- Sample options: three quantiles, `min_count = 0`, nulls skipped. -/
def opts0 : TDigestOptions :=
  { q := [0.1, 0.5, 0.9], delta := 0.01, buffer_size := 500, skip_nulls := true, min_count := 0 }

/-- Sample options: three quantiles, `min_count = 0`, nulls not skipped. -/
def optsStrict : TDigestOptions :=
  { q := [0.1, 0.5, 0.9], delta := 0.01, buffer_size := 500, skip_nulls := false, min_count := 0 }

/-- Sample array: eight slots in the buffers, a window of six starting at 1,
with one null inside the window. -/
def sampleArray : ArrayData Int :=
  { bitmap := [false, true, true, false, true, true, true, false]
    values := [10, 11, 12, 13, 14, 15, 16, 17]
    offset := 1
    length := 6 }

/-- Sample state: three values consumed, nothing disqualifying seen. -/
def sampleState (options : TDigestOptions) : TDigestImpl (List Int) :=
  { options := options, tdigest := [1, 2, 3], count := 3, all_valid := true }

/-- A second sample state: two values consumed, nothing disqualifying seen. -/
def otherState (options : TDigestOptions) : TDigestImpl (List Int) :=
  { options := options, tdigest := [4, 5], count := 2, all_valid := true }

/-- The values of the valid positions among the `n` window positions from `pos` on. -/
def validFrom {V : Type} [Inhabited V] (bitmap : List Bool) (offset : Nat) (values : List V)
    (n pos : Nat) : List V :=
  ((List.range n).filter (fun i => GetBit bitmap (offset + (pos + i)))).map
    (fun i => values.getD (pos + i) default)

/-- The null test of `Finalize`: `tdigest.is_empty() || !all_valid || count < min_count`. -/
def nullGate {V D : Type} (ops : TDigest V D) (self : TDigestImpl D) : Bool :=
  ops.is_empty self.tdigest || !self.all_valid
    || decide (self.count < (self.options.min_count : Int))

/-- Sample batch for the strict-null scenario: the sample array as a batch. -/
def sampleBatch : ExecBatch Int :=
  { value := Datum.array sampleArray, length := 6 }

/-- Sample broadcast scalar: the valid value 7 over ten rows. -/
def sevenTimesTen : ExecBatch Int :=
  { value := Datum.scalar { value := 7, is_valid := true }, length := 10 }

/-- Sample history: one partition consumes the sample array (which holds a
null), another consumes a broadcast scalar, and the first is merged into the
second. -/
def sampleHistory : History Int :=
  History.merge (History.consume History.fresh sevenTimesTen)
    (History.consume History.fresh sampleBatch)

/-- A dense array over the values `vs`: every slot valid, window at offset 0. -/
def ArrayData.ofValues {V : Type} (vs : List V) : ArrayData V :=
  { bitmap := List.replicate vs.length true, values := vs, offset := 0, length := vs.length }

/-- The array with its null entries removed. -/
def ArrayData.dropNulls {V : Type} [Inhabited V] (data : ArrayData V) : ArrayData V :=
  ArrayData.ofValues data.validValues

/-- The array with every null and every NaN entry removed. -/
def ArrayData.dropNullsAndNaNs {V : Type} [Inhabited V] (isNaN : V → Bool)
    (data : ArrayData V) : ArrayData V :=
  ArrayData.ofValues (data.validValues.filter (fun v => !isNaN v))

/-- The `ArrayData::Slice(off, len)` view: same buffers, window moved by `off`. -/
def ArrayData.Slice {V : Type} (data : ArrayData V) (off len : Nat) : ArrayData V :=
  { data with offset := data.offset + off, length := len }

/-- An array batch over `data`. -/
def ExecBatch.ofArray {V : Type} (data : ArrayData V) : ExecBatch V :=
  { value := Datum.array data, length := data.length }

/-- Modelled from the spec: the part of the Centroid Digest contract (section
4.1; `arrow/util/tdigest.h` is not among the sources) that concerns NaN and
emptiness. `New(delta, buffer_size)` is an empty digest, and `Add(value)` is
ignored if the value is NaN. -/
structure DigestContract {V D : Type} (ops : TDigest V D) (isNaN : V → Bool) : Prop where
  create_empty : ∀ (delta : Float) (buffer_size : Nat),
    ops.is_empty (ops.create delta buffer_size) = true
  nan_ignored : ∀ (d : D) (v : V), isNaN v = true → ops.NanAdd d v = d

/-- Whether the batch holds a value that is neither null nor NaN. -/
def ExecBatch.hasDataPoint {V : Type} [Inhabited V] (isNaN : V → Bool) (batch : ExecBatch V) :
    Bool :=
  match batch.value with
  | .array data => data.validValues.any (fun v => !isNaN v)
  | .scalar s => s.is_valid && !isNaN s.value && decide (0 < batch.length)

/-- The state after a fresh aggregator consumed the batches in order. -/
def consumeAll {V D : Type} [Inhabited V] (ops : TDigest V D) (options : TDigestOptions)
    (batches : List (ExecBatch V)) : TDigestImpl D :=
  batches.foldl (fun s b => (TDigestImpl.Consume ops s b).2) (TDigestImpl.mk_from ops options)

/-- A sample element type with a NaN, for running the kernel on concrete inputs. -/
inductive Elem where
  | nan
  | num (x : Int)
  deriving DecidableEq, Repr

/-- The default element. -/
instance : Inhabited Elem := ⟨Elem.num 0⟩

/-- The NaN test of the sample element type. -/
def Elem.isNaN : Elem → Bool
  | .nan => true
  | .num _ => false

/-- Modelled from the spec: ingestion and emptiness of the Centroid Digest
(section 4.1) over the sample element type. `Add` ignores a NaN and keeps any
other value; the digest is empty while nothing was kept; `Merge` takes the union.
`Quantile` returns the minimum for `q <= 0` and otherwise the maximum (the
interpolation between centroids is not reproduced; nothing below rests on it). -/
def nanDigest : TDigest Elem (List Int) :=
  { create := fun _ _ => []
    NanAdd := fun d v =>
      match v with
      | .nan => d
      | .num x => d ++ [x]
    Merge := fun a b => a ++ b
    is_empty := fun d => d.isEmpty
    Quantile := fun d p =>
      if p ≤ 0.0 then Float.ofInt (d.foldl min (d.headD 0))
      else Float.ofInt (d.foldl max (d.headD 0)) }

/-- Sample options: three quantiles, `min_count = 2`, nulls skipped. -/
def opts2 : TDigestOptions :=
  { q := [0.1, 0.5, 0.9], delta := 0.01, buffer_size := 500, skip_nulls := true, min_count := 2 }

/-- Sample array `[1, 2, null, 4]`, with a stale 99 under the null slot. -/
def oneTwoNullFour : ArrayData Int :=
  { bitmap := [true, true, false, true], values := [1, 2, 99, 4], offset := 0, length := 4 }

/-- Sample array `[NaN, 1]`, both slots valid. -/
def nanOne : ArrayData Elem :=
  { bitmap := [true, true], values := [Elem.nan, Elem.num 1], offset := 0, length := 2 }

/-- Sample array `[NaN, null, NaN]`. -/
def nanNullNan : ArrayData Elem :=
  { bitmap := [true, false, true], values := [Elem.nan, Elem.num 5, Elem.nan],
    offset := 0, length := 3 }

/-- Sample element kinds. -/
inductive SampleKind where
  | half_float
  | int64
  | float64
  | utf8
  deriving DecidableEq, Repr

/-- The half-precision test on the sample kinds. -/
def SampleKind.is_half_float : SampleKind → Bool
  | .half_float => true
  | _ => false

/-- The number test on the sample kinds. -/
def SampleKind.is_number_type : SampleKind → Bool
  | .utf8 => false
  | _ => true

/-- An allocator that fails on every request. -/
def failCtx : KernelContext :=
  { Allocate := fun _ => none
    AllocateBitmap := fun _ => none }

/-- An allocator that serves value buffers and fails on bitmaps. -/
def noBitmapCtx : KernelContext :=
  { Allocate := fun _ => some (fun _ => 1.5)
    AllocateBitmap := fun _ => none }

/-! ## Auxiliary lemmas -/

theorem map_const_range {α β : Type} (f : Nat → α) (c : β) (n : Nat) :
    ((List.range n).map f).map (fun _ => c) = List.replicate n c := by
  induction n with
  | zero => rfl
  | succ k ih =>
    rw [List.range_succ, List.map_append, List.map_append, ih]
    simp [List.replicate_succ']

theorem foldl_set_range {α : Type} (f : Nat → α) (buf : List α) :
    ∀ k : Nat, k ≤ buf.length →
      (List.range k).foldl (fun b i => b.set i (f i)) buf = (List.range k).map f ++ buf.drop k := by
  intro k
  induction k with
  | zero => intro _; simp
  | succ k ih =>
    intro hk
    have hk1 : k ≤ buf.length := Nat.le_of_succ_le hk
    rw [List.range_succ, List.foldl_append, ih hk1]
    simp only [List.foldl_cons, List.foldl_nil, List.map_append, List.map_cons, List.map_nil]
    apply List.ext_getElem
    · simp; omega
    · intro i h1 h2
      simp only [List.getElem_set, List.getElem_append, List.length_map, List.length_range,
        List.length_append, List.length_cons, List.length_nil, List.getElem_map,
        List.getElem_range, List.getElem_drop]
      by_cases hik : i < k
      · have h5 : i < k + 1 := by omega
        simp [hik, h5, Nat.ne_of_gt hik]
      · by_cases hik2 : i = k
        · subst hik2; simp
        · have h3 : ¬ i < k + 1 := by omega
          have h4 : ¬ k = i := by omega
          simp [hik, h3, h4]
          congr 1; omega

theorem fillQuantiles_eq {V D : Type} (ops : TDigest V D) (d : D) (q : List Float)
    (fresh : Nat → Float) :
    TDigestImpl.fillQuantiles ops d q ((List.range q.length).map fresh) q.length
      = q.map (ops.Quantile d) := by
  unfold TDigestImpl.fillQuantiles
  rw [foldl_set_range (fun i => ops.Quantile d (q.getD i 0.0)) _ q.length (by simp)]
  have hdrop : ((List.range q.length).map fresh).drop q.length = [] := by
    apply List.drop_eq_nil_of_le; simp
  rw [hdrop, List.append_nil]
  apply List.ext_getElem
  · simp
  · intro i h1 h2
    have hi : i < q.length := by simpa using h2
    simp [List.getD_eq_getElem?_getD, List.getElem?_eq_getElem hi]

theorem addRun_succ {V D : Type} [Inhabited V] (ops : TDigest V D) (values : List V) (d : D)
    (pos len : Nat) :
    TDigestImpl.addRun ops values d pos (len + 1)
      = TDigestImpl.addRun ops values (ops.NanAdd d (values.getD pos default)) (pos + 1) len := by
  unfold TDigestImpl.addRun
  rw [List.range_succ_eq_map, List.foldl_cons, List.foldl_map]
  have hfun : (fun (acc : D) (i : Nat) => ops.NanAdd acc (values.getD (pos + (i + 1)) default))
      = (fun (acc : D) (i : Nat) => ops.NanAdd acc (values.getD (pos + 1 + i) default)) := by
    funext acc i
    rw [Nat.add_assoc, Nat.add_comm 1 i]
  simp only [Nat.add_zero, Nat.succ_eq_add_one]
  rw [hfun]

theorem validFrom_succ {V : Type} [Inhabited V] (bitmap : List Bool) (offset : Nat)
    (values : List V) (n pos : Nat) :
    validFrom bitmap offset values (n + 1) pos
      = (if GetBit bitmap (offset + pos) then [values.getD pos default] else [])
          ++ validFrom bitmap offset values n (pos + 1) := by
  unfold validFrom
  rw [List.range_succ_eq_map, List.filter_cons, List.filter_map]
  have h1 : ((fun i => GetBit bitmap (offset + (pos + i))) ∘ Nat.succ)
      = (fun i => GetBit bitmap (offset + (pos + 1 + i))) := by
    funext i
    simp only [Function.comp, Nat.succ_eq_add_one]
    rw [Nat.add_assoc pos 1 i, Nat.add_comm 1 i]
  have h2 : ((fun i => values.getD (pos + i) default) ∘ Nat.succ)
      = (fun i => values.getD (pos + 1 + i) default) := by
    funext i
    simp only [Function.comp, Nat.succ_eq_add_one]
    rw [Nat.add_assoc pos 1 i, Nat.add_comm 1 i]
  rw [h1]
  by_cases hb : GetBit bitmap (offset + pos) = true
  · simp only [Nat.add_zero, hb, if_true, List.map_cons, List.singleton_append]
    rw [List.map_map, h2]
  · have hb2 : GetBit bitmap (offset + pos) = false := by simpa using hb
    simp only [Nat.add_zero, hb2, Bool.false_eq_true, if_false, List.nil_append]
    rw [List.map_map, h2]

theorem foldl_setBitRuns {V D : Type} [Inhabited V] (ops : TDigest V D) (bitmap : List Bool)
    (offset : Nat) (values : List V) :
    ∀ (n pos : Nat) (d : D),
      (SetBitRunsFrom bitmap offset n pos).foldl
          (fun acc r => TDigestImpl.addRun ops values acc r.1 r.2) d
        = (validFrom bitmap offset values n pos).foldl ops.NanAdd d := by
  intro n
  induction n with
  | zero => intro pos d; simp [SetBitRunsFrom, validFrom]
  | succ n ih =>
    intro pos d
    rw [validFrom_succ]
    by_cases hb : GetBit bitmap (offset + pos) = true
    · simp only [SetBitRunsFrom, hb, if_true, List.singleton_append, List.foldl_cons]
      rw [← ih (pos + 1) (ops.NanAdd d (values.getD pos default))]
      cases hR : SetBitRunsFrom bitmap offset n (pos + 1) with
      | nil =>
        simp only [List.foldl_cons, List.foldl_nil]
        rw [addRun_succ]
        simp [TDigestImpl.addRun]
      | cons r rest =>
        obtain ⟨p, l⟩ := r
        by_cases hp : p = pos + 1
        · subst hp
          simp only [if_true, List.foldl_cons]
          rw [addRun_succ]
        · simp only [hp, if_false, List.foldl_cons]
          rw [addRun_succ]
          simp [TDigestImpl.addRun]
    · simp only [SetBitRunsFrom, hb, if_false, List.nil_append]
      exact ih (pos + 1) d

theorem getD_drop_add {V : Type} (values : List V) (offset i : Nat) (dflt : V) :
    (values.drop offset).getD i dflt = values.getD (offset + i) dflt := by
  simp [List.getD_eq_getElem?_getD, List.getElem?_drop]

theorem validFrom_eq_validValues {V : Type} [Inhabited V] (data : ArrayData V) :
    validFrom data.bitmap data.offset data.GetValues data.length 0 = data.validValues := by
  unfold validFrom ArrayData.validValues ArrayData.GetValues
  have h1 : (fun i => GetBit data.bitmap (data.offset + (0 + i))) = data.IsValid := by
    funext i; simp [ArrayData.IsValid]
  have h2 : (fun i => (data.values.drop data.offset).getD (0 + i) default) = data.Value := by
    funext i; simp [ArrayData.Value, getD_drop_add]
  rw [h1, h2]

theorem countSetBits_eq {V : Type} (data : ArrayData V) :
    CountSetBits data.bitmap data.offset data.length
      = ((List.range data.length).filter data.IsValid).length := by
  rfl

theorem countSetBits_le (bitmap : List Bool) (offset length : Nat) :
    CountSetBits bitmap offset length ≤ length := by
  unfold CountSetBits
  calc ((List.range length).filter (fun i => GetBit bitmap (offset + i))).length
      ≤ (List.range length).length := List.length_filter_le _ _
    _ = length := List.length_range length

theorem addRepeated_eq {V D : Type} (ops : TDigest V D) (value : V) (d : D) (n : Nat) :
    TDigestImpl.addRepeated ops value d n = (List.replicate n value).foldl ops.NanAdd d := by
  unfold TDigestImpl.addRepeated
  have h : List.replicate n value = (List.range n).map (fun _ => value) := by simp
  rw [h, List.foldl_map]

section Helpers

open TDigestImpl

variable {V D : Type}

theorem nullGate_iff (ops : TDigest V D) (self : TDigestImpl D) :
    nullGate ops self = true ↔
      (ops.is_empty self.tdigest = true ∨ self.all_valid = false
        ∨ self.count < (self.options.min_count : Int)) := by
  unfold nullGate
  simp [or_assoc]

theorem finalize_gate_true (ops : TDigest V D) (self : TDigestImpl D) (ctx : KernelContext)
    (out : Option OutData) (hg : nullGate ops self = true) :
    Finalize ops self ctx out =
      match ctx.Allocate (self.options.q.length * 8) with
      | none => (Status.OutOfMemory, out)
      | some _ =>
        match ctx.AllocateBitmap self.options.q.length with
        | none => (Status.OutOfMemory, out)
        | some _ => (Status.OK, some (OutData.allNull self.options.q.length)) := by
  unfold nullGate at hg
  simp only [Finalize, hg, if_true, OutData.allNull, map_const_range]

theorem finalize_gate_false (ops : TDigest V D) (self : TDigestImpl D) (ctx : KernelContext)
    (out : Option OutData) (hg : nullGate ops self = false) :
    Finalize ops self ctx out =
      match ctx.Allocate (self.options.q.length * 8) with
      | none => (Status.OutOfMemory, out)
      | some _ =>
        (Status.OK,
          some { length := self.options.q.length, null_count := 0, validity := none,
                 values := self.options.q.map (ops.Quantile self.tdigest) }) := by
  unfold nullGate at hg
  simp only [Finalize, hg, Bool.false_eq_true, if_false, fillQuantiles_eq]

theorem consume_invalid_state [Inhabited V] (ops : TDigest V D) (self : TDigestImpl D)
    (batch : ExecBatch V) (h : self.all_valid = false) :
    Consume ops self batch = (Status.OK, self) := by
  unfold Consume
  simp [h]

theorem consume_null_strict [Inhabited V] (ops : TDigest V D) (self : TDigestImpl D)
    (batch : ExecBatch V) (hv : self.all_valid = true) (hs : self.options.skip_nulls = false)
    (hn : batch.value.null_count > 0) :
    Consume ops self batch = (Status.OK, { self with all_valid := false }) := by
  unfold Consume
  simp [hv, hs, hn]

theorem consume_array_eq [Inhabited V] (ops : TDigest V D) (self : TDigestImpl D)
    (data : ArrayData V) (len : Nat) (hv : self.all_valid = true)
    (hp : self.options.skip_nulls = true ∨ data.GetNullCount = 0) :
    Consume ops self { value := Datum.array data, length := len } =
      (Status.OK,
        { self with
          count := self.count + (((List.range data.length).filter data.IsValid).length : Int)
          tdigest := data.validValues.foldl ops.NanAdd self.tdigest }) := by
  have hcnt := countSetBits_eq data
  have hle := countSetBits_le data.bitmap data.offset data.length
  have hgate : (!self.options.skip_nulls && decide (data.GetNullCount > 0)) = false := by
    rcases hp with h | h
    · simp [h]
    · simp [h]
  unfold Consume
  simp only [hv, Bool.not_true, Bool.false_eq_true, if_false, Datum.null_count, hgate]
  by_cases hlt : data.length > data.GetNullCount
  · simp only [hlt, if_true, VisitSetBitRunsVoid]
    rw [foldl_setBitRuns, validFrom_eq_validValues]
    have hc : ((data.length : Int) - (data.GetNullCount : Int))
        = (((List.range data.length).filter data.IsValid).length : Int) := by
      unfold ArrayData.GetNullCount
      rw [← hcnt]
      omega
    rw [hc]
  · simp only [hlt, if_false]
    have hz : ((List.range data.length).filter data.IsValid).length = 0 := by
      unfold ArrayData.GetNullCount at hlt
      rw [← hcnt]
      omega
    have hnil : (List.range data.length).filter data.IsValid = [] :=
      List.length_eq_zero.mp hz
    have hvv : data.validValues = [] := by simp [ArrayData.validValues, hnil]
    rw [hvv, hz]
    cases self
    simp only [List.foldl_nil, Nat.cast_zero, Int.add_zero]
    simp only at hv
    subst hv
    rfl

theorem consume_scalar_valid_eq [Inhabited V] (ops : TDigest V D) (self : TDigestImpl D)
    (s : Scalar V) (n : Nat) (hv : self.all_valid = true) (hs : s.is_valid = true) :
    Consume ops self { value := Datum.scalar s, length := n } =
      (Status.OK,
        { self with
          count := self.count + 1
          tdigest := (List.replicate n s.value).foldl ops.NanAdd self.tdigest }) := by
  unfold Consume
  simp [hv, hs, Datum.null_count, addRepeated_eq]

theorem consume_scalar_invalid_skip [Inhabited V] (ops : TDigest V D) (self : TDigestImpl D)
    (s : Scalar V) (n : Nat) (hs : s.is_valid = false) (hk : self.options.skip_nulls = true) :
    Consume ops self { value := Datum.scalar s, length := n } = (Status.OK, self) := by
  unfold Consume
  by_cases hv : self.all_valid = true
  · simp [hv, hs, hk]
  · simp [hv]

theorem consume_options [Inhabited V] (ops : TDigest V D) (self : TDigestImpl D)
    (batch : ExecBatch V) : (Consume ops self batch).2.options = self.options := by
  unfold Consume
  split
  · rfl
  · split
    · rfl
    · split
      · split <;> rfl
      · split <;> rfl

theorem mergeFrom_options (ops : TDigest V D) (self other : TDigestImpl D) :
    (MergeFrom ops self other).2.options = self.options := by
  unfold MergeFrom
  split <;> rfl

theorem mergeFrom_all_valid (ops : TDigest V D) (self other : TDigestImpl D) :
    (MergeFrom ops self other).2.all_valid = (self.all_valid && other.all_valid) := by
  unfold MergeFrom
  cases h1 : self.all_valid <;> cases h2 : other.all_valid <;> simp [h1]

theorem run_options [Inhabited V] (ops : TDigest V D) (options : TDigestOptions)
    (h : History V) : (History.run ops options h : TDigestImpl D).options = options := by
  induction h with
  | fresh => rfl
  | consume h b ih => simp only [History.run, consume_options, ih]
  | merge h1 h2 ih1 _ => simp only [History.run, mergeFrom_options, ih1]

theorem run_poisoned [Inhabited V] (ops : TDigest V D) (options : TDigestOptions)
    (hs : options.skip_nulls = false) (h : History V) (hn : h.sawNull = true) :
    (History.run ops options h : TDigestImpl D).all_valid = false := by
  induction h with
  | fresh => simp [History.sawNull] at hn
  | consume h b ih =>
    simp only [History.run]
    cases hv : (History.run ops options h : TDigestImpl D).all_valid with
    | false => rw [consume_invalid_state ops _ b hv]; exact hv
    | true =>
      have hb : b.value.null_count > 0 := by
        simp only [History.sawNull, Bool.or_eq_true, decide_eq_true_eq] at hn
        rcases hn with h1 | h1
        · rw [ih h1] at hv; cases hv
        · exact h1
      have hso : (History.run ops options h : TDigestImpl D).options.skip_nulls = false := by
        rw [run_options]; exact hs
      rw [consume_null_strict ops _ b hv hso hb]
  | merge h1 h2 ih1 ih2 =>
    simp only [History.run, mergeFrom_all_valid]
    simp only [History.sawNull, Bool.or_eq_true] at hn
    rcases hn with h | h
    · rw [ih1 h]; rfl
    · rw [ih2 h]; simp

end Helpers

/-! ## Finalize -/

section FinalizeClaims

open TDigestImpl

variable {V D : Type}

/-- C1: if the digest is empty, or `all_valid` is false, or `count < min_count`,
a successful `Finalize` writes an entirely null output: its `null_count` is
`|q|`, every validity bit is cleared and every backing value is `0.0`. -/
theorem finalize_gated_is_all_null (ops : TDigest V D) (self : TDigestImpl D)
    (ctx : KernelContext) (out : Option OutData)
    (hgate : ops.is_empty self.tdigest = true ∨ self.all_valid = false
      ∨ self.count < (self.options.min_count : Int))
    (hok : (Finalize ops self ctx out).1 = Status.OK) :
    ∃ r : OutData, (Finalize ops self ctx out).2 = some r
      ∧ r.length = self.options.q.length
      ∧ r.null_count = self.options.q.length
      ∧ r.validity = some (List.replicate self.options.q.length false)
      ∧ r.values = List.replicate self.options.q.length 0.0 := by
  have hg : nullGate ops self = true := (nullGate_iff ops self).mpr hgate
  rw [finalize_gate_true ops self ctx out hg] at hok ⊢
  cases hA : ctx.Allocate (self.options.q.length * 8) with
  | none => rw [hA] at hok; cases hok
  | some fresh =>
    rw [hA] at hok
    cases hB : ctx.AllocateBitmap self.options.q.length with
    | none => rw [hB] at hok; cases hok
    | some freshBits => exact ⟨OutData.allNull self.options.q.length, rfl, rfl, rfl, rfl, rfl⟩

/-- Witness of C1: `count = 3` and `min_count = 5` over a digest that holds three
values gives three null slots. -/
theorem finalize_gated_is_all_null_witness :
    (sampleState opts5).count < ((sampleState opts5).options.min_count : Int)
      ∧ (Finalize recDigest (sampleState opts5) okCtx none).1 = Status.OK
      ∧ ∃ r : OutData, (Finalize recDigest (sampleState opts5) okCtx none).2 = some r
        ∧ r.length = 3 ∧ r.null_count = 3
        ∧ r.validity = some [false, false, false] ∧ r.values = [0.0, 0.0, 0.0] :=
  ⟨by decide, rfl,
    finalize_gated_is_all_null recDigest (sampleState opts5) okCtx none
      (Or.inr (Or.inr (by decide))) rfl⟩

/-- C2: if the digest is non-empty, `all_valid` is true and `count >= min_count`,
a successful `Finalize` writes `output[i] = digest.Quantile(q[i])` for every
index, in the order of `q`, with `null_count = 0` and without a validity bitmap. -/
theorem finalize_open_is_quantiles (ops : TDigest V D) (self : TDigestImpl D)
    (ctx : KernelContext) (out : Option OutData)
    (hne : ops.is_empty self.tdigest = false) (hv : self.all_valid = true)
    (hc : (self.options.min_count : Int) ≤ self.count)
    (hok : (Finalize ops self ctx out).1 = Status.OK) :
    ∃ r : OutData, (Finalize ops self ctx out).2 = some r
      ∧ r.length = self.options.q.length
      ∧ r.values = self.options.q.map (ops.Quantile self.tdigest)
      ∧ (∀ i : Nat, i < self.options.q.length →
          r.values[i]? = (self.options.q[i]?).map (ops.Quantile self.tdigest))
      ∧ r.null_count = 0
      ∧ r.validity = none := by
  have hg : nullGate ops self = false := by
    cases hgv : nullGate ops self with
    | false => rfl
    | true =>
      rcases (nullGate_iff ops self).mp hgv with h | h | h
      · rw [hne] at h; cases h
      · rw [hv] at h; cases h
      · omega
  rw [finalize_gate_false ops self ctx out hg] at hok ⊢
  cases hA : ctx.Allocate (self.options.q.length * 8) with
  | none => rw [hA] at hok; cases hok
  | some fresh =>
    refine ⟨_, rfl, rfl, rfl, ?_, rfl, rfl⟩
    intro i _
    simp

/-- Witness of C2: three values consumed, `min_count = 0`. -/
theorem finalize_open_is_quantiles_witness :
    recDigest.is_empty (sampleState opts0).tdigest = false
      ∧ (sampleState opts0).all_valid = true
      ∧ (Finalize recDigest (sampleState opts0) okCtx none).1 = Status.OK
      ∧ ∃ r : OutData, (Finalize recDigest (sampleState opts0) okCtx none).2 = some r
        ∧ r.length = 3
        ∧ r.values = [recDigest.Quantile [1, 2, 3] 0.1, recDigest.Quantile [1, 2, 3] 0.5,
            recDigest.Quantile [1, 2, 3] 0.9]
        ∧ r.null_count = 0 ∧ r.validity = none :=
  ⟨rfl, rfl, rfl,
    (finalize_open_is_quantiles recDigest (sampleState opts0) okCtx none rfl rfl
      (by decide) rfl).imp
      (fun _ h => ⟨h.1, h.2.1, h.2.2.1, h.2.2.2.2.1, h.2.2.2.2.2⟩)⟩

/-- C3: for every state and every `q`, the output of a successful `Finalize` has
exactly `|q|` slots and is either fully valid (`null_count = 0`, no bitmap) or
fully null (`null_count = |q|`, every bit cleared); it is never partly null. -/
theorem finalize_shape (ops : TDigest V D) (self : TDigestImpl D)
    (ctx : KernelContext) (out : Option OutData)
    (hok : (Finalize ops self ctx out).1 = Status.OK) :
    ∃ r : OutData, (Finalize ops self ctx out).2 = some r
      ∧ r.length = self.options.q.length
      ∧ r.values.length = self.options.q.length
      ∧ ((r.null_count = 0 ∧ r.validity = none)
        ∨ (r.null_count = self.options.q.length
            ∧ r.validity = some (List.replicate self.options.q.length false))) := by
  cases hg : nullGate ops self with
  | true =>
    rw [finalize_gate_true ops self ctx out hg] at hok ⊢
    cases hA : ctx.Allocate (self.options.q.length * 8) with
    | none => rw [hA] at hok; cases hok
    | some fresh =>
      rw [hA] at hok
      cases hB : ctx.AllocateBitmap self.options.q.length with
      | none => rw [hB] at hok; cases hok
      | some freshBits =>
        refine ⟨OutData.allNull self.options.q.length, rfl, rfl, ?_, Or.inr ⟨rfl, rfl⟩⟩
        simp [OutData.allNull]
  | false =>
    rw [finalize_gate_false ops self ctx out hg] at hok ⊢
    cases hA : ctx.Allocate (self.options.q.length * 8) with
    | none => rw [hA] at hok; cases hok
    | some fresh =>
      refine ⟨_, rfl, rfl, ?_, Or.inl ⟨rfl, rfl⟩⟩
      simp

/-- Witness of C3: a fresh state that consumed nothing, `q = [0.1, 0.5, 0.9]`:
three slots, all null. -/
theorem finalize_shape_witness :
    (Finalize recDigest (mk_from recDigest opts0) okCtx none).1 = Status.OK
      ∧ ∃ r : OutData, (Finalize recDigest (mk_from recDigest opts0) okCtx none).2 = some r
        ∧ r.length = 3 ∧ r.values.length = 3
        ∧ ((r.null_count = 0 ∧ r.validity = none)
          ∨ (r.null_count = 3 ∧ r.validity = some [false, false, false])) :=
  ⟨rfl, finalize_shape recDigest (mk_from recDigest opts0) okCtx none rfl⟩

end FinalizeClaims

/-! ## Consume -/

section ConsumeClaims

open TDigestImpl

variable {V D : Type}

/-- C4: on a state with `all_valid = true`, `Consume` of an array batch that is
processed (`skip_nulls` is true, or the batch has no null) returns OK, raises
`count` by the number of valid entries, feeds the digest the values at the valid
positions, each once and in ascending position order, and keeps `all_valid`
true; a batch without a valid entry leaves the state unchanged. -/
theorem consume_array_batch [Inhabited V] (ops : TDigest V D) (self : TDigestImpl D)
    (data : ArrayData V) (len : Nat) (hv : self.all_valid = true)
    (hp : self.options.skip_nulls = true ∨ data.GetNullCount = 0) :
    (Consume ops self { value := Datum.array data, length := len }).1 = Status.OK
      ∧ (Consume ops self { value := Datum.array data, length := len }).2.count
          = self.count + (((List.range data.length).filter data.IsValid).length : Int)
      ∧ (Consume ops self { value := Datum.array data, length := len }).2.tdigest
          = data.validValues.foldl ops.NanAdd self.tdigest
      ∧ (Consume ops self { value := Datum.array data, length := len }).2.all_valid = true
      ∧ (Consume ops self { value := Datum.array data, length := len }).2.options = self.options
      ∧ ((List.range data.length).filter data.IsValid = [] →
          (Consume ops self { value := Datum.array data, length := len }).2 = self) := by
  rw [consume_array_eq ops self data len hv hp]
  refine ⟨rfl, rfl, rfl, hv, rfl, ?_⟩
  intro hnil
  have hvv : data.validValues = [] := by simp [ArrayData.validValues, hnil]
  rw [hvv, hnil]
  cases self
  simp

/-- Witness of C4: the sample array (window of six, one null inside, stale
values under the null and outside the window) consumed into a fresh state. -/
theorem consume_array_batch_witness :
    (mk_from recDigest opts0).all_valid = true
      ∧ (Consume recDigest (mk_from recDigest opts0) sampleBatch).1 = Status.OK
      ∧ (Consume recDigest (mk_from recDigest opts0) sampleBatch).2.count = 0 + ((5 : Nat) : Int)
      ∧ (Consume recDigest (mk_from recDigest opts0) sampleBatch).2.tdigest
          = [11, 12, 14, 15, 16]
      ∧ (Consume recDigest (mk_from recDigest opts0) sampleBatch).2.all_valid = true :=
  ⟨rfl,
    (consume_array_batch recDigest (mk_from recDigest opts0) sampleArray 6 rfl (Or.inl rfl)).1,
    (consume_array_batch recDigest (mk_from recDigest opts0) sampleArray 6 rfl (Or.inl rfl)).2.1,
    (consume_array_batch recDigest (mk_from recDigest opts0) sampleArray 6 rfl (Or.inl rfl)).2.2.1,
    (consume_array_batch recDigest (mk_from recDigest opts0) sampleArray 6 rfl
      (Or.inl rfl)).2.2.2.1⟩

/-- C5: on a state with `all_valid = true`, `Consume` of a scalar batch of logical
length `n` whose scalar is valid adds the scalar to the digest exactly `n` times
and raises `count` by exactly 1; if the scalar is invalid and `skip_nulls` is
true, the state is unchanged. -/
theorem consume_scalar_batch [Inhabited V] (ops : TDigest V D) (self : TDigestImpl D)
    (s : Scalar V) (n : Nat) (hv : self.all_valid = true) :
    (s.is_valid = true →
        (Consume ops self { value := Datum.scalar s, length := n }).1 = Status.OK
        ∧ (Consume ops self { value := Datum.scalar s, length := n }).2.tdigest
            = (List.replicate n s.value).foldl ops.NanAdd self.tdigest
        ∧ (Consume ops self { value := Datum.scalar s, length := n }).2.count = self.count + 1
        ∧ (Consume ops self { value := Datum.scalar s, length := n }).2.all_valid = true
        ∧ (Consume ops self { value := Datum.scalar s, length := n }).2.options = self.options)
      ∧ (s.is_valid = false → self.options.skip_nulls = true →
          Consume ops self { value := Datum.scalar s, length := n } = (Status.OK, self)) := by
  constructor
  · intro hs
    rw [consume_scalar_valid_eq ops self s n hv hs]
    exact ⟨rfl, rfl, rfl, hv, rfl⟩
  · intro hs hk
    exact consume_scalar_invalid_skip ops self s n hs hk

/-- Witness of C5: the scalar 7 over a batch of length 10 with `skip_nulls = true`
adds 7 ten times and raises `count` from 3 to 4; an invalid scalar changes
nothing. -/
theorem consume_scalar_batch_witness :
    (sampleState opts0).all_valid = true
      ∧ (Consume recDigest (sampleState opts0) sevenTimesTen).2.tdigest
          = [1, 2, 3, 7, 7, 7, 7, 7, 7, 7, 7, 7, 7]
      ∧ (Consume recDigest (sampleState opts0) sevenTimesTen).2.count = 4
      ∧ Consume recDigest (sampleState opts0)
          { value := Datum.scalar { value := 7, is_valid := false }, length := 10 }
          = (Status.OK, sampleState opts0) :=
  ⟨rfl,
    ((consume_scalar_batch recDigest (sampleState opts0) { value := 7, is_valid := true } 10
      rfl).1 rfl).2.1,
    ((consume_scalar_batch recDigest (sampleState opts0) { value := 7, is_valid := true } 10
      rfl).1 rfl).2.2.1,
    (consume_scalar_batch recDigest (sampleState opts0) { value := 7, is_valid := false } 10
      rfl).2 rfl rfl⟩

/-- C6: on a state with `all_valid = true`, when `skip_nulls` is false and the
batch (array or scalar) holds a null, `Consume` returns OK, sets `all_valid` to
false and leaves the digest, the count and the options as they were. -/
theorem consume_null_poisons [Inhabited V] (ops : TDigest V D) (self : TDigestImpl D)
    (batch : ExecBatch V) (hv : self.all_valid = true)
    (hs : self.options.skip_nulls = false) (hn : batch.value.null_count > 0) :
    (Consume ops self batch).1 = Status.OK
      ∧ (Consume ops self batch).2.all_valid = false
      ∧ (Consume ops self batch).2.tdigest = self.tdigest
      ∧ (Consume ops self batch).2.count = self.count
      ∧ (Consume ops self batch).2.options = self.options := by
  rw [consume_null_strict ops self batch hv hs hn]
  exact ⟨rfl, rfl, rfl, rfl, rfl⟩

/-- Witness of C6: the sample array, which has one null in its window, and an
invalid scalar, each consumed with `skip_nulls = false`. -/
theorem consume_null_poisons_witness :
    (sampleState optsStrict).options.skip_nulls = false
      ∧ sampleBatch.value.null_count > 0
      ∧ (Consume recDigest (sampleState optsStrict) sampleBatch).2.all_valid = false
      ∧ (Consume recDigest (sampleState optsStrict) sampleBatch).2.tdigest = [1, 2, 3]
      ∧ (Consume recDigest (sampleState optsStrict) sampleBatch).2.count = 3
      ∧ (Consume recDigest (sampleState optsStrict)
          { value := Datum.scalar { value := 7, is_valid := false }, length := 10 }).2.all_valid
          = false :=
  ⟨rfl, by decide,
    (consume_null_poisons recDigest (sampleState optsStrict) sampleBatch rfl rfl
      (by decide)).2.1,
    (consume_null_poisons recDigest (sampleState optsStrict) sampleBatch rfl rfl
      (by decide)).2.2.1,
    (consume_null_poisons recDigest (sampleState optsStrict) sampleBatch rfl rfl
      (by decide)).2.2.2.1,
    (consume_null_poisons recDigest (sampleState optsStrict)
      { value := Datum.scalar { value := 7, is_valid := false }, length := 10 } rfl rfl
      (by decide)).2.1⟩

/-- C7: on a state with `all_valid = false`, `Consume` of any batch, under any
`skip_nulls`, returns OK and leaves the whole state (digest, count, `all_valid`)
unchanged. -/
theorem consume_after_poison_is_noop [Inhabited V] (ops : TDigest V D)
    (self : TDigestImpl D) (batch : ExecBatch V) (h : self.all_valid = false) :
    Consume ops self batch = (Status.OK, self) :=
  consume_invalid_state ops self batch h

/-- Witness of C7: a poisoned state ignores the sample array. -/
theorem consume_after_poison_is_noop_witness :
    Consume recDigest { sampleState opts0 with all_valid := false } sampleBatch
      = (Status.OK, { sampleState opts0 with all_valid := false }) :=
  consume_after_poison_is_noop recDigest { sampleState opts0 with all_valid := false }
    sampleBatch rfl

end ConsumeClaims

/-! ## MergeFrom -/

section MergeClaims

open TDigestImpl

variable {V D : Type}

/-- C8: after `this.MergeFrom(other)` the flag `all_valid` of `this` is the
conjunction of the two flags before the call; the call returns OK. -/
theorem mergeFrom_all_valid_is_and (ops : TDigest V D) (self other : TDigestImpl D) :
    (MergeFrom ops self other).1 = Status.OK
      ∧ (MergeFrom ops self other).2.all_valid = (self.all_valid && other.all_valid) := by
  refine ⟨?_, mergeFrom_all_valid ops self other⟩
  unfold MergeFrom
  split <;> rfl

/-- C9: when both states have `all_valid = true`, `this.MergeFrom(other)` returns
OK and leaves `this` with the sum of the counts, the digest `Merge` of the two
digests, and `all_valid = true`. -/
theorem mergeFrom_both_valid (ops : TDigest V D) (self other : TDigestImpl D)
    (h1 : self.all_valid = true) (h2 : other.all_valid = true) :
    (MergeFrom ops self other).1 = Status.OK
      ∧ (MergeFrom ops self other).2.count = self.count + other.count
      ∧ (MergeFrom ops self other).2.tdigest = ops.Merge self.tdigest other.tdigest
      ∧ (MergeFrom ops self other).2.all_valid = true
      ∧ (MergeFrom ops self other).2.options = self.options := by
  unfold MergeFrom
  simp [h1, h2]

/-- Witness of C9: two states of three values each. -/
theorem mergeFrom_both_valid_witness :
    (MergeFrom recDigest (sampleState opts0) (sampleState opts0)).2.count = 3 + 3
      ∧ (MergeFrom recDigest (sampleState opts0) (sampleState opts0)).2.tdigest
          = [1, 2, 3, 1, 2, 3]
      ∧ (MergeFrom recDigest (sampleState opts0) (sampleState opts0)).2.all_valid = true :=
  ⟨(mergeFrom_both_valid recDigest (sampleState opts0) (sampleState opts0) rfl rfl).2.1,
    (mergeFrom_both_valid recDigest (sampleState opts0) (sampleState opts0) rfl rfl).2.2.1,
    (mergeFrom_both_valid recDigest (sampleState opts0) (sampleState opts0) rfl rfl).2.2.2.1⟩

end MergeClaims

/-! ## Histories -/

section HistoryClaims

open TDigestImpl

variable {V D : Type}

/-- C10: with `skip_nulls = false`, for every history built from fresh states by
`Consume` and `MergeFrom` calls in which some consumed batch holds a null, the
final state has `all_valid = false` and a successful `Finalize` writes `|q|`
null slots. Moreover `all_valid` never returns from false to true: `Consume`
keeps a false flag false, and `MergeFrom` yields false when either side is false. -/
theorem strict_null_forces_null_output [Inhabited V] (ops : TDigest V D)
    (options : TDigestOptions) (h : History V) (ctx : KernelContext) (out : Option OutData)
    (hs : options.skip_nulls = false) (hn : h.sawNull = true)
    (hok : (Finalize ops (History.run ops options h) ctx out).1 = Status.OK) :
    ((History.run ops options h : TDigestImpl D).all_valid = false
      ∧ ∃ r : OutData, (Finalize ops (History.run ops options h) ctx out).2 = some r
        ∧ r.length = options.q.length
        ∧ r.null_count = options.q.length
        ∧ r.validity = some (List.replicate options.q.length false)
        ∧ r.values = List.replicate options.q.length 0.0)
      ∧ (∀ (s : TDigestImpl D) (b : ExecBatch V),
          s.all_valid = false → (Consume ops s b).2.all_valid = false)
      ∧ (∀ s o : TDigestImpl D,
          s.all_valid = false ∨ o.all_valid = false →
            (MergeFrom ops s o).2.all_valid = false) := by
  have hp := run_poisoned ops options hs h hn (D := D)
  have ho := run_options ops options h (D := D)
  refine ⟨⟨hp, ?_⟩, ?_, ?_⟩
  · have hg : nullGate ops (History.run ops options h) = true :=
      (nullGate_iff ops _).mpr (Or.inr (Or.inl hp))
    rw [finalize_gate_true ops _ ctx out hg] at hok ⊢
    rw [ho] at hok ⊢
    cases hA : ctx.Allocate (options.q.length * 8) with
    | none => rw [hA] at hok; cases hok
    | some fresh =>
      rw [hA] at hok
      cases hB : ctx.AllocateBitmap options.q.length with
      | none => rw [hB] at hok; cases hok
      | some freshBits => exact ⟨OutData.allNull options.q.length, rfl, rfl, rfl, rfl, rfl⟩
  · intro s b hsv
    rw [consume_invalid_state ops s b hsv]
    exact hsv
  · intro s o hso
    rw [mergeFrom_all_valid]
    rcases hso with h1 | h1
    · rw [h1]; rfl
    · rw [h1]; simp

/-- Witness of C10: one partition consumes a broadcast scalar, another the sample
array with its null; after the merge `Finalize` gives three null slots. -/
theorem strict_null_forces_null_output_witness :
    optsStrict.skip_nulls = false
      ∧ sampleHistory.sawNull = true
      ∧ (History.run recDigest optsStrict sampleHistory).all_valid = false
      ∧ ∃ r : OutData,
          (Finalize recDigest (History.run recDigest optsStrict sampleHistory) okCtx none).2
            = some r
          ∧ r.length = 3 ∧ r.null_count = 3
          ∧ r.validity = some [false, false, false] ∧ r.values = [0.0, 0.0, 0.0] :=
  ⟨rfl, by decide,
    (strict_null_forces_null_output recDigest optsStrict sampleHistory okCtx none rfl
      (by decide) rfl).1⟩

end HistoryClaims

/-! ## Lemmas on arrays without nulls, slices and the digest contract -/

section MoreHelpers

open TDigestImpl

variable {V D : Type}

theorem map_getD_range (vs : List V) (dflt : V) :
    (List.range vs.length).map (fun i => vs.getD i dflt) = vs := by
  apply List.ext_getElem
  · simp
  · intro i h1 h2
    simp [List.getD_eq_getElem?_getD, List.getElem?_eq_getElem h2]

theorem isValid_ofValues (vs : List V) (i : Nat) (hi : i < vs.length) :
    (ArrayData.ofValues vs).IsValid i = true := by
  simp [ArrayData.IsValid, ArrayData.ofValues, GetBit, List.getD_eq_getElem?_getD,
    List.getElem?_replicate, hi]

theorem filter_isValid_ofValues (vs : List V) :
    (List.range (ArrayData.ofValues vs).length).filter (ArrayData.ofValues vs).IsValid
      = List.range vs.length := by
  apply List.filter_eq_self.mpr
  intro i hi
  exact isValid_ofValues vs i (List.mem_range.mp hi)

theorem validValues_ofValues [Inhabited V] (vs : List V) :
    (ArrayData.ofValues vs).validValues = vs := by
  unfold ArrayData.validValues
  rw [filter_isValid_ofValues]
  have h : (ArrayData.ofValues vs).Value = fun i => vs.getD i default := by
    funext i
    simp [ArrayData.Value, ArrayData.ofValues]
  rw [h, map_getD_range]

theorem validCount_eq_length [Inhabited V] (data : ArrayData V) :
    ((List.range data.length).filter data.IsValid).length = data.validValues.length := by
  simp [ArrayData.validValues]

theorem getNullCount_eq [Inhabited V] (data : ArrayData V) :
    data.GetNullCount = data.length - data.validValues.length := by
  rw [← validCount_eq_length]
  rfl

theorem validValues_length_le [Inhabited V] (data : ArrayData V) :
    data.validValues.length ≤ data.length := by
  rw [← validCount_eq_length]
  exact countSetBits_le data.bitmap data.offset data.length

theorem getNullCount_ofValues [Inhabited V] (vs : List V) :
    (ArrayData.ofValues vs).GetNullCount = 0 := by
  rw [getNullCount_eq, validValues_ofValues]
  simp [ArrayData.ofValues]

/-- On a processed array batch the new state is a function of the values at the
valid positions alone. -/
theorem consume_array_by_validValues [Inhabited V] (ops : TDigest V D) (self : TDigestImpl D)
    (data : ArrayData V) (len : Nat) (hv : self.all_valid = true)
    (hp : self.options.skip_nulls = true ∨ data.GetNullCount = 0) :
    Consume ops self { value := Datum.array data, length := len } =
      (Status.OK,
        { self with
          count := self.count + (data.validValues.length : Int)
          tdigest := data.validValues.foldl ops.NanAdd self.tdigest }) := by
  rw [consume_array_eq ops self data len hv hp, validCount_eq_length]

theorem consume_array_congr [Inhabited V] (ops : TDigest V D) (self : TDigestImpl D)
    (data1 data2 : ArrayData V) (len1 len2 : Nat) (hs : self.options.skip_nulls = true)
    (h : data1.validValues = data2.validValues) :
    Consume ops self { value := Datum.array data1, length := len1 }
      = Consume ops self { value := Datum.array data2, length := len2 } := by
  cases hv : self.all_valid with
  | false => rw [consume_invalid_state ops self _ hv, consume_invalid_state ops self _ hv]
  | true =>
    rw [consume_array_by_validValues ops self data1 len1 hv (Or.inl hs),
      consume_array_by_validValues ops self data2 len2 hv (Or.inl hs), h]

theorem foldl_nanAdd_filter (ops : TDigest V D) (isNaN : V → Bool)
    (hc : DigestContract ops isNaN) (vs : List V) :
    ∀ d : D, (vs.filter (fun v => !isNaN v)).foldl ops.NanAdd d = vs.foldl ops.NanAdd d := by
  induction vs with
  | nil => intro d; rfl
  | cons v rest ih =>
    intro d
    cases hn : isNaN v with
    | true =>
      simp only [List.filter_cons, hn, Bool.not_true, Bool.false_eq_true, if_false,
        List.foldl_cons]
      rw [hc.nan_ignored d v hn]
      exact ih d
    | false =>
      simp only [List.filter_cons, hn, Bool.not_false, if_true, List.foldl_cons]
      exact ih _

theorem foldl_nanAdd_all_nan (ops : TDigest V D) (isNaN : V → Bool)
    (hc : DigestContract ops isNaN) (vs : List V) (hall : ∀ v ∈ vs, isNaN v = true) (d : D) :
    vs.foldl ops.NanAdd d = d := by
  rw [← foldl_nanAdd_filter ops isNaN hc vs d]
  have hnil : vs.filter (fun v => !isNaN v) = [] := by
    apply List.filter_eq_nil_iff.mpr
    intro v hv
    simp [hall v hv]
  rw [hnil]
  rfl

theorem finalize_gated_congr (ops : TDigest V D) (s1 s2 : TDigestImpl D) (ctx : KernelContext)
    (out : Option OutData) (ho : s1.options = s2.options) (h1 : nullGate ops s1 = true)
    (h2 : nullGate ops s2 = true) :
    Finalize ops s1 ctx out = Finalize ops s2 ctx out := by
  rw [finalize_gate_true ops s1 ctx out h1, finalize_gate_true ops s2 ctx out h2, ho]

theorem finalize_congr (ops : TDigest V D) (s1 s2 : TDigestImpl D) (ctx : KernelContext)
    (out : Option OutData) (ho : s1.options = s2.options) (hd : s1.tdigest = s2.tdigest)
    (hg : nullGate ops s1 = nullGate ops s2) :
    Finalize ops s1 ctx out = Finalize ops s2 ctx out := by
  cases h1 : nullGate ops s1 with
  | true => exact finalize_gated_congr ops s1 s2 ctx out ho h1 (hg ▸ h1)
  | false =>
    have h2 : nullGate ops s2 = false := hg ▸ h1
    rw [finalize_gate_false ops s1 ctx out h1, finalize_gate_false ops s2 ctx out h2, ho, hd]

theorem nanDigest_contract : DigestContract nanDigest Elem.isNaN where
  create_empty := fun _ _ => rfl
  nan_ignored := by
    intro d v h
    cases v with
    | nan => rfl
    | num x => cases h

theorem nullGate_of_invalid (ops : TDigest V D) (s : TDigestImpl D) (h : s.all_valid = false) :
    nullGate ops s = true :=
  (nullGate_iff ops s).mpr (Or.inr (Or.inl h))

theorem nullGate_of_empty (ops : TDigest V D) (s : TDigestImpl D)
    (h : ops.is_empty s.tdigest = true) : nullGate ops s = true :=
  (nullGate_iff ops s).mpr (Or.inl h)

end MoreHelpers

/-! ## Nulls and NaNs -/

section NullClaims

open TDigestImpl

variable {V D : Type}

/-- C11: with `skip_nulls = true`, for every state and every array batch,
`Consume` of the batch yields the same status and state as `Consume` of the
batch with its null entries removed; and the result does not depend on the
values stored under the null slots. -/
theorem consume_skips_nulls [Inhabited V] (ops : TDigest V D) (self : TDigestImpl D)
    (data : ArrayData V) (hs : self.options.skip_nulls = true) :
    Consume ops self (ExecBatch.ofArray data)
        = Consume ops self (ExecBatch.ofArray data.dropNulls)
      ∧ ∀ values : List V,
          (∀ i : Nat, i < data.length → data.IsValid i = true →
            values.getD (data.offset + i) default = data.values.getD (data.offset + i) default) →
          Consume ops self (ExecBatch.ofArray { data with values := values })
            = Consume ops self (ExecBatch.ofArray data) := by
  constructor
  · apply consume_array_congr ops self data data.dropNulls _ _ hs
    unfold ArrayData.dropNulls
    rw [validValues_ofValues]
  · intro values hsame
    apply consume_array_congr ops self _ data _ _ hs
    unfold ArrayData.validValues
    apply List.map_congr_left
    intro i hi
    have hi2 := List.mem_filter.mp hi
    exact hsame i (List.mem_range.mp hi2.1) hi2.2

/-- Witness of C11: `[1, 2, null, 4]` (a stale 99 under the null) and `[1, 2, 4]`
give the same state, the digest having been fed 1, 2, 4. -/
theorem consume_skips_nulls_witness :
    oneTwoNullFour.dropNulls = ArrayData.ofValues [1, 2, 4]
      ∧ Consume recDigest (mk_from recDigest opts0) (ExecBatch.ofArray oneTwoNullFour)
          = Consume recDigest (mk_from recDigest opts0)
              (ExecBatch.ofArray oneTwoNullFour.dropNulls)
      ∧ (Consume recDigest (mk_from recDigest opts0)
            (ExecBatch.ofArray oneTwoNullFour)).2.tdigest = [1, 2, 4] :=
  ⟨rfl,
    (consume_skips_nulls recDigest (mk_from recDigest opts0) oneTwoNullFour rfl).1,
    by decide⟩

/-- C12, as the code has it: with `skip_nulls = true` and a digest that ignores
NaN, consuming an array batch into a fresh state feeds the digest exactly as the
batch without its null and NaN entries does (the two digests are equal), but
`count` records every non-null entry, NaN included: it is `c`, the number of
non-null entries, for the batch and `k`, the number of entries that are neither
null nor NaN, for the batch without them. The two `Finalize` results agree unless
`0 < k < min_count <= c`; in particular they agree when `min_count <= 1`. -/
theorem nan_removal_same_output_unless_gate [Inhabited V] (ops : TDigest V D)
    (isNaN : V → Bool) (hc : DigestContract ops isNaN) (options : TDigestOptions)
    (data : ArrayData V) (ctx : KernelContext) (out : Option OutData)
    (hs : options.skip_nulls = true) :
    (Consume ops (mk_from ops options) (ExecBatch.ofArray data)).2.tdigest
        = (Consume ops (mk_from ops options)
            (ExecBatch.ofArray (data.dropNullsAndNaNs isNaN))).2.tdigest
      ∧ (Consume ops (mk_from ops options) (ExecBatch.ofArray data)).2.count
          = (data.validValues.length : Int)
      ∧ (Consume ops (mk_from ops options)
            (ExecBatch.ofArray (data.dropNullsAndNaNs isNaN))).2.count
          = ((data.validValues.filter (fun v => !isNaN v)).length : Int)
      ∧ (¬ (0 < (data.validValues.filter (fun v => !isNaN v)).length
            ∧ (data.validValues.filter (fun v => !isNaN v)).length < options.min_count
            ∧ options.min_count ≤ data.validValues.length) →
          Finalize ops (Consume ops (mk_from ops options) (ExecBatch.ofArray data)).2 ctx out
            = Finalize ops (Consume ops (mk_from ops options)
                (ExecBatch.ofArray (data.dropNullsAndNaNs isNaN))).2 ctx out)
      ∧ (options.min_count ≤ 1 →
          Finalize ops (Consume ops (mk_from ops options) (ExecBatch.ofArray data)).2 ctx out
            = Finalize ops (Consume ops (mk_from ops options)
                (ExecBatch.ofArray (data.dropNullsAndNaNs isNaN))).2 ctx out) := by
  have hs2 : (mk_from ops options : TDigestImpl D).options.skip_nulls = true := hs
  have hvv : (data.dropNullsAndNaNs isNaN).validValues
      = data.validValues.filter (fun v => !isNaN v) := by
    unfold ArrayData.dropNullsAndNaNs
    rw [validValues_ofValues]
  unfold ExecBatch.ofArray
  rw [consume_array_by_validValues ops _ data _ rfl (Or.inl hs2),
    consume_array_by_validValues ops _ (data.dropNullsAndNaNs isNaN) _ rfl (Or.inl hs2), hvv]
  have hdig : (data.validValues.filter (fun v => !isNaN v)).foldl ops.NanAdd
        (mk_from ops options : TDigestImpl D).tdigest
      = data.validValues.foldl ops.NanAdd (mk_from ops options : TDigestImpl D).tdigest :=
    foldl_nanAdd_filter ops isNaN hc data.validValues _
  have hfin : ¬ (0 < (data.validValues.filter (fun v => !isNaN v)).length
        ∧ (data.validValues.filter (fun v => !isNaN v)).length < options.min_count
        ∧ options.min_count ≤ data.validValues.length) →
      Finalize ops
          (Status.OK,
            { mk_from ops options with
              count := (mk_from ops options : TDigestImpl D).count
                + (data.validValues.length : Int)
              tdigest := data.validValues.foldl ops.NanAdd
                (mk_from ops options : TDigestImpl D).tdigest }).2 ctx out
        = Finalize ops
            (Status.OK,
              { mk_from ops options with
                count := (mk_from ops options : TDigestImpl D).count
                  + ((data.validValues.filter (fun v => !isNaN v)).length : Int)
                tdigest := (data.validValues.filter (fun v => !isNaN v)).foldl ops.NanAdd
                  (mk_from ops options : TDigestImpl D).tdigest }).2 ctx out := by
    intro hm
    refine finalize_congr ops _ _ ctx out ?_ ?_ ?_
    · rfl
    · exact hdig.symm
    have hle : (data.validValues.filter (fun v => !isNaN v)).length ≤ data.validValues.length :=
      List.length_filter_le _ _
    by_cases hk : (data.validValues.filter (fun v => !isNaN v)).length = 0
    · have hnil : data.validValues.filter (fun v => !isNaN v) = [] := List.length_eq_zero.mp hk
      have hd0 : data.validValues.foldl ops.NanAdd (mk_from ops options : TDigestImpl D).tdigest
          = (mk_from ops options : TDigestImpl D).tdigest := by
        rw [← hdig, hnil]
        rfl
      rw [nullGate_of_empty, nullGate_of_empty]
      · simp only [hnil, List.foldl_nil]
        exact hc.create_empty _ _
      · simp only [hd0]
        exact hc.create_empty _ _
    · unfold nullGate
      simp only [hdig]
      have hdec : decide ((0 : Int) + (data.validValues.length : Int) < (options.min_count : Int))
          = decide ((0 : Int) + ((data.validValues.filter (fun v => !isNaN v)).length : Int)
              < (options.min_count : Int)) := by
        apply decide_eq_decide.mpr
        constructor
        · intro h; omega
        · intro h
          by_contra hcon
          apply hm
          refine ⟨by omega, by omega, by omega⟩
      simp only [mk_from] at hdec ⊢
      rw [hdec]
  refine ⟨hdig.symm, ?_, ?_, hfin, ?_⟩
  · simp [mk_from]
  · simp [mk_from]
  · intro hmin
    apply hfin
    intro h
    omega

/-- Witness of C12 as amended, on `[NaN, 1]`: with `min_count = 2` the digests
are equal (both were fed 1 alone) while the counts are 2 and 1; with
`min_count = 0` the two `Finalize` results are equal. -/
theorem nan_removal_same_output_unless_gate_witness :
    ((Consume nanDigest (mk_from nanDigest opts2) (ExecBatch.ofArray nanOne)).2.tdigest
        = (Consume nanDigest (mk_from nanDigest opts2)
            (ExecBatch.ofArray (nanOne.dropNullsAndNaNs Elem.isNaN))).2.tdigest
      ∧ (Consume nanDigest (mk_from nanDigest opts2) (ExecBatch.ofArray nanOne)).2.tdigest = [1]
      ∧ (Consume nanDigest (mk_from nanDigest opts2) (ExecBatch.ofArray nanOne)).2.count = 2
      ∧ (Consume nanDigest (mk_from nanDigest opts2)
          (ExecBatch.ofArray (nanOne.dropNullsAndNaNs Elem.isNaN))).2.count = 1)
      ∧ Finalize nanDigest (Consume nanDigest (mk_from nanDigest opts0)
          (ExecBatch.ofArray nanOne)).2 okCtx none
        = Finalize nanDigest (Consume nanDigest (mk_from nanDigest opts0)
            (ExecBatch.ofArray (nanOne.dropNullsAndNaNs Elem.isNaN))).2 okCtx none :=
  ⟨⟨(nan_removal_same_output_unless_gate nanDigest Elem.isNaN nanDigest_contract
        opts2 nanOne okCtx none rfl).1,
      by decide,
      (nan_removal_same_output_unless_gate nanDigest Elem.isNaN nanDigest_contract
        opts2 nanOne okCtx none rfl).2.1,
      (nan_removal_same_output_unless_gate nanDigest Elem.isNaN nanDigest_contract
        opts2 nanOne okCtx none rfl).2.2.1⟩,
    (nan_removal_same_output_unless_gate nanDigest Elem.isNaN nanDigest_contract
      opts0 nanOne okCtx none rfl).2.2.2.1 (by decide)⟩

/-- Counterexample to C12 as stated: for `[NaN, 1]` and `min_count = 2` the
batch itself gives a valid output (`count = 2`), the batch without the NaN gives
a null output (`count = 1`). -/
theorem nan_removal_changes_output :
    Finalize nanDigest (Consume nanDigest (mk_from nanDigest opts2)
        (ExecBatch.ofArray nanOne)).2 okCtx none
      ≠ Finalize nanDigest (Consume nanDigest (mk_from nanDigest opts2)
          (ExecBatch.ofArray (nanOne.dropNullsAndNaNs Elem.isNaN))).2 okCtx none := by
  intro h
  have h2 := congrArg (fun p : Status × Option OutData => p.2.map OutData.null_count) h
  revert h2
  decide

end NullClaims

/-! ## Construction, empty input and failures -/

section MoreLemmas

open TDigestImpl

variable {V D : Type}

theorem consume_status [Inhabited V] (ops : TDigest V D) (self : TDigestImpl D)
    (batch : ExecBatch V) : (Consume ops self batch).1 = Status.OK := by
  unfold Consume
  split
  · rfl
  · split
    · rfl
    · split
      · split <;> rfl
      · split <;> rfl

theorem mergeFrom_status (ops : TDigest V D) (self other : TDigestImpl D) :
    (MergeFrom ops self other).1 = Status.OK := by
  unfold MergeFrom
  split <;> rfl

/-- A batch without a value that is neither null nor NaN leaves the digest as it was. -/
theorem consume_no_data_point [Inhabited V] (ops : TDigest V D) (isNaN : V → Bool)
    (hc : DigestContract ops isNaN) (self : TDigestImpl D) (batch : ExecBatch V)
    (hnone : batch.hasDataPoint isNaN = false) :
    (Consume ops self batch).2.tdigest = self.tdigest := by
  cases hv : self.all_valid with
  | false => rw [consume_invalid_state ops self batch hv]
  | true =>
    by_cases hstrict : self.options.skip_nulls = false ∧ batch.value.null_count > 0
    · rw [consume_null_strict ops self batch hv hstrict.1 hstrict.2]
    · obtain ⟨value, len⟩ := batch
      cases value with
      | array data =>
        have hp : self.options.skip_nulls = true ∨ data.GetNullCount = 0 := by
          cases hsk : self.options.skip_nulls with
          | true => exact Or.inl rfl
          | false =>
            right
            by_contra hne
            exact hstrict ⟨hsk, Nat.pos_of_ne_zero hne⟩
        rw [consume_array_by_validValues ops self data len hv hp]
        apply foldl_nanAdd_all_nan ops isNaN hc
        intro v hvmem
        have hany : data.validValues.any (fun v => !isNaN v) = false := hnone
        have h := List.any_eq_false.mp hany v hvmem
        simpa using h
      | scalar sc =>
        cases hsv : sc.is_valid with
        | false =>
          cases hsk : self.options.skip_nulls with
          | true => rw [consume_scalar_invalid_skip ops self sc len hsv hsk]
          | false =>
            exfalso
            apply hstrict
            refine ⟨hsk, ?_⟩
            simp [Datum.null_count, hsv]
        | true =>
          rw [consume_scalar_valid_eq ops self sc len hv hsv]
          have hpt : (!isNaN sc.value && decide (0 < len)) = false := by
            have h : (sc.is_valid && !isNaN sc.value && decide (0 < len)) = false := hnone
            rw [hsv] at h
            simpa using h
          cases hn : isNaN sc.value with
          | true =>
            apply foldl_nanAdd_all_nan ops isNaN hc
            intro v hvmem
            rw [List.eq_of_mem_replicate hvmem]
            exact hn
          | false =>
            have hlen : len = 0 := by
              rw [hn] at hpt
              simpa using hpt
            subst hlen
            rfl

theorem consumeAll_options [Inhabited V] (ops : TDigest V D) (options : TDigestOptions)
    (batches : List (ExecBatch V)) :
    (consumeAll ops options batches : TDigestImpl D).options = options := by
  unfold consumeAll
  have hgen : ∀ (bs : List (ExecBatch V)) (s : TDigestImpl D),
      (bs.foldl (fun s b => (Consume ops s b).2) s).options = s.options := by
    intro bs
    induction bs with
    | nil => intro s; rfl
    | cons b rest ih =>
      intro s
      rw [List.foldl_cons, ih, consume_options]
  rw [hgen]
  rfl

theorem consumeAll_no_data_point [Inhabited V] (ops : TDigest V D) (isNaN : V → Bool)
    (hc : DigestContract ops isNaN) (options : TDigestOptions) (batches : List (ExecBatch V))
    (hnone : ∀ b ∈ batches, b.hasDataPoint isNaN = false) :
    (consumeAll ops options batches : TDigestImpl D).tdigest
      = ops.create options.delta options.buffer_size := by
  unfold consumeAll
  have hgen : ∀ (bs : List (ExecBatch V)) (s : TDigestImpl D),
      (∀ b ∈ bs, b.hasDataPoint isNaN = false) →
      (bs.foldl (fun s b => (Consume ops s b).2) s).tdigest = s.tdigest := by
    intro bs
    induction bs with
    | nil => intro s _; rfl
    | cons b rest ih =>
      intro s hb
      rw [List.foldl_cons, ih _ (fun b2 h2 => hb b2 (List.mem_cons_of_mem _ h2)),
        consume_no_data_point ops isNaN hc s b (hb b (List.mem_cons_self _ _))]
  rw [hgen batches _ hnone]
  rfl

theorem finalize_status_iff (ops : TDigest V D) (self : TDigestImpl D) (ctx : KernelContext)
    (out : Option OutData) :
    (Finalize ops self ctx out).1 = Status.OK ↔
      ((ctx.Allocate (self.options.q.length * 8)).isSome = true
        ∧ (nullGate ops self = true →
            (ctx.AllocateBitmap self.options.q.length).isSome = true)) := by
  cases hg : nullGate ops self with
  | true =>
    rw [finalize_gate_true ops self ctx out hg]
    cases hA : ctx.Allocate (self.options.q.length * 8) with
    | none => simp
    | some fresh =>
      cases hB : ctx.AllocateBitmap self.options.q.length with
      | none => simp
      | some freshBits => simp
  | false =>
    rw [finalize_gate_false ops self ctx out hg]
    cases hA : ctx.Allocate (self.options.q.length * 8) with
    | none => simp
    | some fresh => simp

theorem finalize_failure_keeps_out (ops : TDigest V D) (self : TDigestImpl D)
    (ctx : KernelContext) (out : Option OutData)
    (h : (Finalize ops self ctx out).1 ≠ Status.OK) :
    Finalize ops self ctx out = (Status.OutOfMemory, out) := by
  cases hg : nullGate ops self with
  | true =>
    rw [finalize_gate_true ops self ctx out hg] at h ⊢
    cases hA : ctx.Allocate (self.options.q.length * 8) with
    | none => rfl
    | some fresh =>
      rw [hA] at h
      cases hB : ctx.AllocateBitmap self.options.q.length with
      | none => rfl
      | some freshBits => rw [hB] at h; exact absurd rfl h
  | false =>
    rw [finalize_gate_false ops self ctx out hg] at h ⊢
    cases hA : ctx.Allocate (self.options.q.length * 8) with
    | none => rfl
    | some fresh => rw [hA] at h; exact absurd rfl h

theorem finalize_success_writes (ops : TDigest V D) (self : TDigestImpl D)
    (ctx : KernelContext) (out : Option OutData)
    (h : (Finalize ops self ctx out).1 = Status.OK) :
    ∃ r : OutData, (Finalize ops self ctx out).2 = some r
      ∧ r.length = self.options.q.length := by
  cases hg : nullGate ops self with
  | true =>
    rw [finalize_gate_true ops self ctx out hg] at h ⊢
    cases hA : ctx.Allocate (self.options.q.length * 8) with
    | none => rw [hA] at h; cases h
    | some fresh =>
      rw [hA] at h
      cases hB : ctx.AllocateBitmap self.options.q.length with
      | none => rw [hB] at h; cases h
      | some freshBits => exact ⟨_, rfl, rfl⟩
  | false =>
    rw [finalize_gate_false ops self ctx out hg] at h ⊢
    cases hA : ctx.Allocate (self.options.q.length * 8) with
    | none => rw [hA] at h; cases h
    | some fresh => exact ⟨_, rfl, rfl⟩

end MoreLemmas

section ConstructionClaims

open TDigestImpl

variable {T V D : Type}

/-- C13: `TDigestInit` fails with NotImplemented, leaving the visitor without a
state, when the element kind is the half-precision float or is not a number
kind; for every other number kind it succeeds and returns a state with
`count = 0`, `all_valid = true` and a new digest built from the options' `delta`
and `buffer_size`. -/
theorem tdigestInit_by_kind (is_half_float is_number_type : T → Bool) (ops : TDigest V D)
    (in_type : T) (options : TDigestOptions) :
    ((is_half_float in_type = true ∨ is_number_type in_type = false) →
        TDigestInit is_half_float is_number_type ops in_type options
            = Except.error Status.NotImplemented
          ∧ (TDigestInitState.Visit is_half_float is_number_type ops
              (TDigestInitState.mk_from in_type options)).2.state = none)
      ∧ ((is_half_float in_type = false ∧ is_number_type in_type = true) →
          ∃ st : TDigestImpl D,
            TDigestInit is_half_float is_number_type ops in_type options = Except.ok (some st)
              ∧ st.count = 0 ∧ st.all_valid = true
              ∧ st.tdigest = ops.create options.delta options.buffer_size
              ∧ st.options = options) := by
  constructor
  · intro h
    rcases h with h | h
    · simp [TDigestInit, TDigestInitState.Create, TDigestInitState.Visit,
        TDigestInitState.mk_from, h]
    · cases hh : is_half_float in_type <;>
        simp [TDigestInit, TDigestInitState.Create, TDigestInitState.Visit,
          TDigestInitState.mk_from, h, hh]
  · intro h
    refine ⟨mk_from ops options, ?_, rfl, rfl, rfl, rfl⟩
    simp [TDigestInit, TDigestInitState.Create, TDigestInitState.Visit,
      TDigestInitState.mk_from, h.1, h.2]

/-- Witness of C13: half float and a string kind are refused, a 64-bit integer
kind is accepted. -/
theorem tdigestInit_by_kind_witness :
    (TDigestInit SampleKind.is_half_float SampleKind.is_number_type recDigest
        SampleKind.half_float opts0 = Except.error Status.NotImplemented)
      ∧ (TDigestInit SampleKind.is_half_float SampleKind.is_number_type recDigest
          SampleKind.utf8 opts0 = Except.error Status.NotImplemented)
      ∧ ∃ st : TDigestImpl (List Int),
          TDigestInit SampleKind.is_half_float SampleKind.is_number_type recDigest
              SampleKind.int64 opts0 = Except.ok (some st)
            ∧ st.count = 0 ∧ st.all_valid = true
            ∧ st.tdigest = recDigest.create opts0.delta opts0.buffer_size
            ∧ st.options = opts0 :=
  ⟨((tdigestInit_by_kind SampleKind.is_half_float SampleKind.is_number_type recDigest
      SampleKind.half_float opts0).1 (Or.inl rfl)).1,
    ((tdigestInit_by_kind SampleKind.is_half_float SampleKind.is_number_type recDigest
      SampleKind.utf8 opts0).1 (Or.inr rfl)).1,
    (tdigestInit_by_kind SampleKind.is_half_float SampleKind.is_number_type recDigest
      SampleKind.int64 opts0).2 ⟨rfl, rfl⟩⟩

end ConstructionClaims

section EmptyAndFailureClaims

open TDigestImpl

variable {V D : Type}

/-- C14: over a digest that starts empty and ignores NaN, for every options value
and every sequence of batches consumed into a fresh state none of which holds a
value that is neither null nor NaN, the digest is empty and a successful
`Finalize` yields a fully-null output of length `|q|`. -/
theorem no_data_point_gives_nulls [Inhabited V] (ops : TDigest V D) (isNaN : V → Bool)
    (hc : DigestContract ops isNaN) (options : TDigestOptions)
    (batches : List (ExecBatch V)) (ctx : KernelContext) (out : Option OutData)
    (hnone : ∀ b ∈ batches, b.hasDataPoint isNaN = false)
    (hok : (Finalize ops (consumeAll ops options batches) ctx out).1 = Status.OK) :
    ops.is_empty (consumeAll ops options batches : TDigestImpl D).tdigest = true
      ∧ ∃ r : OutData, (Finalize ops (consumeAll ops options batches) ctx out).2 = some r
        ∧ r.length = options.q.length
        ∧ r.null_count = options.q.length
        ∧ r.validity = some (List.replicate options.q.length false)
        ∧ r.values = List.replicate options.q.length 0.0 := by
  have hd := consumeAll_no_data_point ops isNaN hc options batches hnone
  have ho := consumeAll_options ops options batches (D := D)
  have hempty : ops.is_empty (consumeAll ops options batches : TDigestImpl D).tdigest = true := by
    rw [hd]
    exact hc.create_empty _ _
  refine ⟨hempty, ?_⟩
  have hg := nullGate_of_empty ops _ hempty
  rw [finalize_gate_true ops _ ctx out hg] at hok ⊢
  rw [ho] at hok ⊢
  cases hA : ctx.Allocate (options.q.length * 8) with
  | none => rw [hA] at hok; cases hok
  | some fresh =>
    rw [hA] at hok
    cases hB : ctx.AllocateBitmap options.q.length with
    | none => rw [hB] at hok; cases hok
    | some freshBits => exact ⟨OutData.allNull options.q.length, rfl, rfl, rfl, rfl, rfl⟩

/-- Witness of C14: an array `[NaN, null, NaN]`, a NaN scalar over four rows, an
invalid scalar and an empty array, with `min_count = 0`: the count reaches 3, the
digest stays empty and the output is three nulls. -/
theorem no_data_point_gives_nulls_witness :
    (consumeAll nanDigest opts0
        [ExecBatch.ofArray nanNullNan,
          { value := Datum.scalar { value := Elem.nan, is_valid := true }, length := 4 },
          { value := Datum.scalar { value := Elem.num 7, is_valid := false }, length := 4 },
          ExecBatch.ofArray (ArrayData.ofValues [])]).count = 3
      ∧ nanDigest.is_empty (consumeAll nanDigest opts0
          [ExecBatch.ofArray nanNullNan,
            { value := Datum.scalar { value := Elem.nan, is_valid := true }, length := 4 },
            { value := Datum.scalar { value := Elem.num 7, is_valid := false }, length := 4 },
            ExecBatch.ofArray (ArrayData.ofValues [])]).tdigest = true
      ∧ ∃ r : OutData,
          (Finalize nanDigest (consumeAll nanDigest opts0
            [ExecBatch.ofArray nanNullNan,
              { value := Datum.scalar { value := Elem.nan, is_valid := true }, length := 4 },
              { value := Datum.scalar { value := Elem.num 7, is_valid := false }, length := 4 },
              ExecBatch.ofArray (ArrayData.ofValues [])]) okCtx none).2 = some r
          ∧ r.length = 3 ∧ r.null_count = 3
          ∧ r.validity = some [false, false, false] ∧ r.values = [0.0, 0.0, 0.0] :=
  ⟨by decide,
    no_data_point_gives_nulls nanDigest Elem.isNaN nanDigest_contract opts0
      [ExecBatch.ofArray nanNullNan,
        { value := Datum.scalar { value := Elem.nan, is_valid := true }, length := 4 },
        { value := Datum.scalar { value := Elem.num 7, is_valid := false }, length := 4 },
        ExecBatch.ofArray (ArrayData.ofValues [])] okCtx none (by decide) rfl⟩

/-- C15: if allocating the values buffer fails, or, on the all-null path,
allocating the validity bitmap fails, `Finalize` returns the allocation failure
and the output datum is left as it was; whenever the status is not OK the output
datum is untouched, and when it is OK the datum holds the new array of `|q|`
slots. Starting from an empty datum, the datum is set exactly when the status is
OK. -/
theorem finalize_is_atomic (ops : TDigest V D) (self : TDigestImpl D) (ctx : KernelContext)
    (out : Option OutData) :
    (ctx.Allocate (self.options.q.length * 8) = none →
        Finalize ops self ctx out = (Status.OutOfMemory, out))
      ∧ ((ops.is_empty self.tdigest = true ∨ self.all_valid = false
            ∨ self.count < (self.options.min_count : Int)) →
          ctx.AllocateBitmap self.options.q.length = none →
          Finalize ops self ctx out = (Status.OutOfMemory, out))
      ∧ ((Finalize ops self ctx out).1 ≠ Status.OK → (Finalize ops self ctx out).2 = out)
      ∧ ((Finalize ops self ctx out).1 = Status.OK →
          ∃ r : OutData, (Finalize ops self ctx out).2 = some r
            ∧ r.length = self.options.q.length)
      ∧ ((Finalize ops self ctx none).2.isSome = true ↔
          (Finalize ops self ctx none).1 = Status.OK) := by
  refine ⟨?_, ?_, ?_, ?_, ?_⟩
  · intro hA
    apply finalize_failure_keeps_out
    intro hok
    have h := ((finalize_status_iff ops self ctx out).mp hok).1
    rw [hA] at h
    cases h
  · intro hgate hB
    apply finalize_failure_keeps_out
    intro hok
    have h := ((finalize_status_iff ops self ctx out).mp hok).2
      ((nullGate_iff ops self).mpr hgate)
    rw [hB] at h
    cases h
  · intro hne
    rw [finalize_failure_keeps_out ops self ctx out hne]
  · exact finalize_success_writes ops self ctx out
  · constructor
    · intro hsome
      by_contra hne
      rw [finalize_failure_keeps_out ops self ctx none hne] at hsome
      cases hsome
    · intro hok
      obtain ⟨r, hr, _⟩ := finalize_success_writes ops self ctx none hok
      rw [hr]
      rfl

/-- Witness of C15: an allocator that fails, and one that fails on the bitmap
only, both leave a previously held datum in place. -/
theorem finalize_is_atomic_witness :
    Finalize recDigest (sampleState opts0) failCtx (some (OutData.allNull 1))
        = (Status.OutOfMemory, some (OutData.allNull 1))
      ∧ Finalize recDigest (sampleState opts5) noBitmapCtx (some (OutData.allNull 1))
        = (Status.OutOfMemory, some (OutData.allNull 1)) :=
  ⟨(finalize_is_atomic recDigest (sampleState opts0) failCtx (some (OutData.allNull 1))).1 rfl,
    (finalize_is_atomic recDigest (sampleState opts5) noBitmapCtx
      (some (OutData.allNull 1))).2.1 (Or.inr (Or.inr (by decide))) rfl⟩

/-- C16: `Consume` returns OK for every state and batch, and `MergeFrom` returns
OK for every pair of states. -/
theorem consume_and_merge_never_fail [Inhabited V] (ops : TDigest V D) (self other : TDigestImpl D)
    (batch : ExecBatch V) :
    (Consume ops self batch).1 = Status.OK ∧ (MergeFrom ops self other).1 = Status.OK :=
  ⟨consume_status ops self batch, mergeFrom_status ops self other⟩

end EmptyAndFailureClaims

/-! ## Splitting, broadcasting and merge order -/

section SliceLemmas

open TDigestImpl

variable {V D : Type}

theorem validValues_slice_zero [Inhabited V] (data : ArrayData V) (k : Nat) :
    (data.Slice 0 k).validValues
      = ((List.range k).filter data.IsValid).map data.Value := by
  unfold ArrayData.validValues
  have h1 : (data.Slice 0 k).IsValid = data.IsValid := by
    funext i; simp [ArrayData.IsValid, ArrayData.Slice]
  have h2 : (data.Slice 0 k).Value = data.Value := by
    funext i; simp [ArrayData.Value, ArrayData.Slice]
  rw [h1, h2]
  rfl

theorem validValues_slice [Inhabited V] (data : ArrayData V) (k n : Nat) :
    (data.Slice k n).validValues
      = (((List.range n).map (fun i => k + i)).filter data.IsValid).map data.Value := by
  unfold ArrayData.validValues
  rw [List.filter_map, List.map_map]
  have h1 : (data.Slice k n).IsValid = data.IsValid ∘ (fun i => k + i) := by
    funext i; simp [ArrayData.IsValid, ArrayData.Slice, Nat.add_assoc]
  have h2 : (data.Slice k n).Value = data.Value ∘ (fun i => k + i) := by
    funext i; simp [ArrayData.Value, ArrayData.Slice, Nat.add_assoc]
  rw [h1, h2]
  rfl

theorem validValues_split [Inhabited V] (data : ArrayData V) (k : Nat) (hk : k ≤ data.length) :
    data.validValues
      = (data.Slice 0 k).validValues ++ (data.Slice k (data.length - k)).validValues := by
  rw [validValues_slice_zero, validValues_slice]
  unfold ArrayData.validValues
  have hn : data.length = k + (data.length - k) := by omega
  conv_lhs => rw [hn, List.range_add, List.filter_append, List.map_append]

theorem getNullCount_split [Inhabited V] (data : ArrayData V) (k : Nat) (hk : k ≤ data.length) :
    data.GetNullCount
      = (data.Slice 0 k).GetNullCount + (data.Slice k (data.length - k)).GetNullCount := by
  have h0 := validValues_length_le (data.Slice 0 k)
  have h1 := validValues_length_le (data.Slice k (data.length - k))
  have hs := congrArg List.length (validValues_split data k hk)
  rw [List.length_append] at hs
  rw [getNullCount_eq, getNullCount_eq, getNullCount_eq, hs]
  have e0 : (data.Slice 0 k).length = k := rfl
  have e1 : (data.Slice k (data.length - k)).length = data.length - k := rfl
  rw [e0] at h0 ⊢
  rw [e1] at h1 ⊢
  omega

end SliceLemmas

section SplitLemmas

open TDigestImpl

variable {V D : Type}

/-- Consuming the two halves of a split array gives the state of consuming the
whole, unless nulls are not skipped and the array holds one: then both states
are poisoned. -/
theorem consume_split_states [Inhabited V] (ops : TDigest V D) (self : TDigestImpl D)
    (data : ArrayData V) (k : Nat) (hk : k ≤ data.length) :
    (Consume ops (Consume ops self (ExecBatch.ofArray (data.Slice 0 k))).2
          (ExecBatch.ofArray (data.Slice k (data.length - k)))).2
        = (Consume ops self (ExecBatch.ofArray data)).2
      ∨ (self.options.skip_nulls = false
        ∧ (Consume ops (Consume ops self (ExecBatch.ofArray (data.Slice 0 k))).2
            (ExecBatch.ofArray (data.Slice k (data.length - k)))).2.all_valid = false
        ∧ (Consume ops self (ExecBatch.ofArray data)).2.all_valid = false
        ∧ (Consume ops (Consume ops self (ExecBatch.ofArray (data.Slice 0 k))).2
            (ExecBatch.ofArray (data.Slice k (data.length - k)))).2.options
          = (Consume ops self (ExecBatch.ofArray data)).2.options) := by
  have hsplit := getNullCount_split data k hk
  cases hv : self.all_valid with
  | false =>
    left
    have e1 := consume_invalid_state ops self (ExecBatch.ofArray (data.Slice 0 k)) hv
    have hv1 : (Consume ops self (ExecBatch.ofArray (data.Slice 0 k))).2.all_valid = false := by
      rw [e1]; exact hv
    rw [consume_invalid_state ops _ (ExecBatch.ofArray (data.Slice k (data.length - k))) hv1,
      e1, consume_invalid_state ops self (ExecBatch.ofArray data) hv]
  | true =>
    by_cases hp : self.options.skip_nulls = true ∨ data.GetNullCount = 0
    · left
      have hp0 : self.options.skip_nulls = true ∨ (data.Slice 0 k).GetNullCount = 0 := by
        rcases hp with h | h
        · exact Or.inl h
        · right; omega
      have e1 := consume_array_by_validValues ops self (data.Slice 0 k)
        (data.Slice 0 k).length hv hp0
      have hv1 : (Consume ops self (ExecBatch.ofArray (data.Slice 0 k))).2.all_valid = true := by
        unfold ExecBatch.ofArray
        rw [e1]; exact hv
      have hp1 : (Consume ops self (ExecBatch.ofArray (data.Slice 0 k))).2.options.skip_nulls
            = true
          ∨ (data.Slice k (data.length - k)).GetNullCount = 0 := by
        rw [consume_options]
        rcases hp with h | h
        · exact Or.inl h
        · right; omega
      have e2 := consume_array_by_validValues ops _ (data.Slice k (data.length - k))
        (data.Slice k (data.length - k)).length hv1 hp1
      have e3 := consume_array_by_validValues ops self data data.length hv hp
      unfold ExecBatch.ofArray at e2 ⊢
      rw [e2, e3, e1]
      simp only [validValues_split data k hk, List.foldl_append, List.length_append,
        Nat.cast_add, Int.add_assoc]
    · right
      have hsk : self.options.skip_nulls = false := by
        cases h : self.options.skip_nulls with
        | false => rfl
        | true => exact absurd (Or.inl h) hp
      have hnc : data.GetNullCount > 0 := by
        apply Nat.pos_of_ne_zero
        intro h
        exact hp (Or.inr h)
      have e3 := consume_null_strict ops self (ExecBatch.ofArray data) hv hsk hnc
      refine ⟨hsk, ?_, ?_, ?_⟩
      · by_cases hpre : (data.Slice 0 k).GetNullCount > 0
        · have e1 := consume_null_strict ops self (ExecBatch.ofArray (data.Slice 0 k)) hv hsk hpre
          have hv1 : (Consume ops self (ExecBatch.ofArray (data.Slice 0 k))).2.all_valid
              = false := by
            rw [e1]
          rw [consume_invalid_state ops _ _ hv1]
          exact hv1
        · have hpre0 : (data.Slice 0 k).GetNullCount = 0 := by omega
          have e1 := consume_array_by_validValues ops self (data.Slice 0 k)
            (data.Slice 0 k).length hv (Or.inr hpre0)
          have hv1 : (Consume ops self (ExecBatch.ofArray (data.Slice 0 k))).2.all_valid
              = true := by
            unfold ExecBatch.ofArray
            rw [e1]; exact hv
          have hs1 : (Consume ops self (ExecBatch.ofArray (data.Slice 0 k))).2.options.skip_nulls
              = false := by
            rw [consume_options]; exact hsk
          have hsuf : (ExecBatch.ofArray (data.Slice k (data.length - k))).value.null_count > 0 := by
            show (data.Slice k (data.length - k)).GetNullCount > 0
            omega
          rw [consume_null_strict ops _ _ hv1 hs1 hsuf]
      · rw [e3]
      · rw [consume_options, consume_options, consume_options]

end SplitLemmas

section RelationalClaims

open TDigestImpl

variable {V D : Type}

/-- C17: for every state, every array batch and every split point `k`,
`Finalize` after `Consume` of the first `k` slots and then of the remaining ones
gives the same result as `Finalize` after `Consume` of the whole batch, under
both `skip_nulls` settings; with `skip_nulls = true` the two states are equal. -/
theorem split_batch_same_result [Inhabited V] (ops : TDigest V D) (self : TDigestImpl D)
    (data : ArrayData V) (k : Nat) (ctx : KernelContext) (out : Option OutData)
    (hk : k ≤ data.length) :
    Finalize ops
        (Consume ops (Consume ops self (ExecBatch.ofArray (data.Slice 0 k))).2
          (ExecBatch.ofArray (data.Slice k (data.length - k)))).2 ctx out
        = Finalize ops (Consume ops self (ExecBatch.ofArray data)).2 ctx out
      ∧ (self.options.skip_nulls = true →
          (Consume ops (Consume ops self (ExecBatch.ofArray (data.Slice 0 k))).2
            (ExecBatch.ofArray (data.Slice k (data.length - k)))).2
          = (Consume ops self (ExecBatch.ofArray data)).2) := by
  rcases consume_split_states ops self data k hk with h | h
  · exact ⟨by rw [h], fun _ => h⟩
  · constructor
    · exact finalize_gated_congr ops _ _ ctx out h.2.2.2
        (nullGate_of_invalid ops _ h.2.1) (nullGate_of_invalid ops _ h.2.2.1)
    · intro hs
      rw [h.1] at hs
      cases hs

/-- Witness of C17: the sample array split after its third slot, with nulls
skipped and with nulls not skipped. -/
theorem split_batch_same_result_witness :
    (Consume recDigest (Consume recDigest (sampleState opts0)
          (ExecBatch.ofArray (sampleArray.Slice 0 3))).2
        (ExecBatch.ofArray (sampleArray.Slice 3 (sampleArray.length - 3)))).2
        = (Consume recDigest (sampleState opts0) (ExecBatch.ofArray sampleArray)).2
      ∧ Finalize recDigest
          (Consume recDigest (Consume recDigest (sampleState optsStrict)
            (ExecBatch.ofArray (sampleArray.Slice 0 3))).2
          (ExecBatch.ofArray (sampleArray.Slice 3 (sampleArray.length - 3)))).2 okCtx none
        = Finalize recDigest
            (Consume recDigest (sampleState optsStrict) (ExecBatch.ofArray sampleArray)).2
            okCtx none :=
  ⟨(split_batch_same_result recDigest (sampleState opts0) sampleArray 3 okCtx none
      (by decide)).2 rfl,
    (split_batch_same_result recDigest (sampleState optsStrict) sampleArray 3 okCtx none
      (by decide)).1⟩

/-- C18: a broadcast scalar is not equivalent to the array it stands for. When
`1 < min_count <= n` and the digest fed `n` copies of `v` is not empty, the valid
scalar `v` over `n` rows and the array of `n` valid copies of `v`, each consumed
into a fresh state, feed the digest the same values, but the scalar leaves
`count = 1` and a fully-null output while the array leaves `count = n` and a
fully valid output. -/
theorem scalar_is_not_its_array [Inhabited V] (ops : TDigest V D) (options : TDigestOptions)
    (v : V) (n : Nat) (ctx : KernelContext) (out : Option OutData)
    (hm : 1 < options.min_count) (hn : options.min_count ≤ n)
    (hne : ops.is_empty ((List.replicate n v).foldl ops.NanAdd
      (ops.create options.delta options.buffer_size)) = false)
    (hA : (ctx.Allocate (options.q.length * 8)).isSome = true)
    (hB : (ctx.AllocateBitmap options.q.length).isSome = true) :
    (Consume ops (mk_from ops options)
        { value := Datum.scalar { value := v, is_valid := true }, length := n }).2.tdigest
        = (Consume ops (mk_from ops options)
            (ExecBatch.ofArray (ArrayData.ofValues (List.replicate n v)))).2.tdigest
      ∧ (Consume ops (mk_from ops options)
          { value := Datum.scalar { value := v, is_valid := true }, length := n }).2.count = 1
      ∧ (Consume ops (mk_from ops options)
          (ExecBatch.ofArray (ArrayData.ofValues (List.replicate n v)))).2.count = (n : Int)
      ∧ Finalize ops (Consume ops (mk_from ops options)
          { value := Datum.scalar { value := v, is_valid := true }, length := n }).2 ctx out
        = (Status.OK, some (OutData.allNull options.q.length))
      ∧ Finalize ops (Consume ops (mk_from ops options)
          (ExecBatch.ofArray (ArrayData.ofValues (List.replicate n v)))).2 ctx out
        = (Status.OK,
            some { length := options.q.length, null_count := 0, validity := none,
                   values := options.q.map (ops.Quantile ((List.replicate n v).foldl ops.NanAdd
                     (ops.create options.delta options.buffer_size))) }) := by
  obtain ⟨fresh, hfresh⟩ := Option.isSome_iff_exists.mp hA
  obtain ⟨freshBits, hbits⟩ := Option.isSome_iff_exists.mp hB
  have e1 := consume_scalar_valid_eq ops (mk_from ops options)
    { value := v, is_valid := true } n rfl rfl
  have e2 := consume_array_by_validValues ops (mk_from ops options)
    (ArrayData.ofValues (List.replicate n v)) (ArrayData.ofValues (List.replicate n v)).length
    rfl (Or.inr (getNullCount_ofValues _))
  rw [validValues_ofValues] at e2
  unfold ExecBatch.ofArray
  rw [e1, e2]
  refine ⟨rfl, ?_, ?_, ?_, ?_⟩
  · simp [mk_from]
  · simp [mk_from]
  · have hg : nullGate ops
        { mk_from ops options with
          count := (mk_from ops options : TDigestImpl D).count + 1
          tdigest := (List.replicate n v).foldl ops.NanAdd
            (mk_from ops options : TDigestImpl D).tdigest } = true := by
      apply (nullGate_iff ops _).mpr
      right; right
      simp only [mk_from]
      omega
    rw [finalize_gate_true ops _ ctx out hg]
    simp only [mk_from, hfresh, hbits]
  · have hg : nullGate ops
        { mk_from ops options with
          count := (mk_from ops options : TDigestImpl D).count
            + ((List.replicate n v).length : Int)
          tdigest := (List.replicate n v).foldl ops.NanAdd
            (mk_from ops options : TDigestImpl D).tdigest } = false := by
      cases hgv : nullGate ops
        { mk_from ops options with
          count := (mk_from ops options : TDigestImpl D).count
            + ((List.replicate n v).length : Int)
          tdigest := (List.replicate n v).foldl ops.NanAdd
            (mk_from ops options : TDigestImpl D).tdigest } with
      | false => rfl
      | true =>
        rcases (nullGate_iff ops _).mp hgv with h | h | h
        · simp only [mk_from] at h
          rw [hne] at h
          cases h
        · simp only [mk_from] at h
          cases h
        · simp only [mk_from, List.length_replicate] at h
          omega
    rw [finalize_gate_false ops _ ctx out hg]
    simp only [mk_from, hfresh]

/-- Witness of C18: `v = 7`, `n = 10`, `min_count = 2`. -/
theorem scalar_is_not_its_array_witness :
    (Consume recDigest (mk_from recDigest opts2) sevenTimesTen).2.tdigest
        = (Consume recDigest (mk_from recDigest opts2)
            (ExecBatch.ofArray (ArrayData.ofValues (List.replicate 10 7)))).2.tdigest
      ∧ (Consume recDigest (mk_from recDigest opts2) sevenTimesTen).2.count = 1
      ∧ (Consume recDigest (mk_from recDigest opts2)
          (ExecBatch.ofArray (ArrayData.ofValues (List.replicate 10 7)))).2.count = 10
      ∧ Finalize recDigest (Consume recDigest (mk_from recDigest opts2) sevenTimesTen).2
          okCtx none = (Status.OK, some (OutData.allNull 3))
      ∧ (Finalize recDigest (Consume recDigest (mk_from recDigest opts2)
          (ExecBatch.ofArray (ArrayData.ofValues (List.replicate 10 7)))).2
          okCtx none).2.map OutData.null_count = some 0 :=
  ⟨(scalar_is_not_its_array recDigest opts2 7 10 okCtx none (by decide) (by decide) rfl rfl
      rfl).1,
    (scalar_is_not_its_array recDigest opts2 7 10 okCtx none (by decide) (by decide) rfl rfl
      rfl).2.1,
    (scalar_is_not_its_array recDigest opts2 7 10 okCtx none (by decide) (by decide) rfl rfl
      rfl).2.2.1,
    (scalar_is_not_its_array recDigest opts2 7 10 okCtx none (by decide) (by decide) rfl rfl
      rfl).2.2.2.1,
    congrArg (fun p : Status × Option OutData => p.2.map OutData.null_count)
      (scalar_is_not_its_array recDigest opts2 7 10 okCtx none (by decide) (by decide) rfl rfl
        rfl).2.2.2.2⟩

/-- C19: for two states built from the same options, if the merged digest is
empty exactly when both input digests are empty, the null test of `Finalize` has
the same outcome after `A.MergeFrom(B)` and after `B.MergeFrom(A)`: the two
`Finalize` calls return the same status and one writes the fully-null output if
and only if the other does. When both states have `all_valid = true` the two
merged states have the same count and the same `all_valid`. -/
theorem merge_order_keeps_nullness (ops : TDigest V D) (a b : TDigestImpl D)
    (ctx : KernelContext) (out : Option OutData) (ho : a.options = b.options)
    (hmerge : ∀ x y : D, ops.is_empty (ops.Merge x y) = (ops.is_empty x && ops.is_empty y)) :
    nullGate ops (MergeFrom ops a b).2 = nullGate ops (MergeFrom ops b a).2
      ∧ (Finalize ops (MergeFrom ops a b).2 ctx out).1
          = (Finalize ops (MergeFrom ops b a).2 ctx out).1
      ∧ ((Finalize ops (MergeFrom ops a b).2 ctx out).2
            = some (OutData.allNull a.options.q.length)
          ↔ (Finalize ops (MergeFrom ops b a).2 ctx out).2
            = some (OutData.allNull a.options.q.length))
      ∧ (a.all_valid = true → b.all_valid = true →
          (MergeFrom ops a b).2.count = (MergeFrom ops b a).2.count
            ∧ (MergeFrom ops a b).2.all_valid = (MergeFrom ops b a).2.all_valid) := by
  have hoab : (MergeFrom ops a b).2.options = a.options := mergeFrom_options ops a b
  have hoba : (MergeFrom ops b a).2.options = a.options := by
    rw [mergeFrom_options ops b a, ho]
  have hgate : nullGate ops (MergeFrom ops a b).2 = nullGate ops (MergeFrom ops b a).2 := by
    cases ha : a.all_valid with
    | false =>
      rw [nullGate_of_invalid, nullGate_of_invalid]
      · rw [mergeFrom_all_valid, ha]; simp
      · rw [mergeFrom_all_valid, ha]; rfl
    | true =>
      cases hb : b.all_valid with
      | false =>
        rw [nullGate_of_invalid, nullGate_of_invalid]
        · rw [mergeFrom_all_valid, hb]; rfl
        · rw [mergeFrom_all_valid, hb]; simp
      | true =>
        unfold nullGate MergeFrom
        simp only [ha, hb, Bool.not_true, Bool.or_false, Bool.false_eq_true, if_false, hmerge]
        rw [Bool.and_comm, Int.add_comm b.count a.count, ho]
  refine ⟨hgate, ?_, ?_, ?_⟩
  · cases hg : nullGate ops (MergeFrom ops a b).2 with
    | true =>
      rw [finalize_gated_congr ops _ (MergeFrom ops b a).2 ctx out (hoab.trans hoba.symm) hg
        (hgate ▸ hg)]
    | false =>
      rw [finalize_gate_false ops _ ctx out hg,
        finalize_gate_false ops _ ctx out (hgate ▸ hg), hoab, hoba]
      cases ctx.Allocate (a.options.q.length * 8) <;> rfl
  · cases hg : nullGate ops (MergeFrom ops a b).2 with
    | true =>
      rw [finalize_gated_congr ops _ (MergeFrom ops b a).2 ctx out (hoab.trans hoba.symm) hg
        (hgate ▸ hg)]
    | false =>
      rw [finalize_gate_false ops _ ctx out hg,
        finalize_gate_false ops _ ctx out (hgate ▸ hg), hoab, hoba]
      cases ctx.Allocate (a.options.q.length * 8) with
      | none => exact Iff.rfl
      | some fresh =>
        constructor
        · intro h
          have h2 := congrArg (fun o : Option OutData => o.map OutData.validity) h
          simp [OutData.allNull] at h2
        · intro h
          have h2 := congrArg (fun o : Option OutData => o.map OutData.validity) h
          simp [OutData.allNull] at h2
  · intro ha hb
    unfold MergeFrom
    simp only [ha, hb, Bool.not_true, Bool.or_false, Bool.false_eq_true, if_false]
    exact ⟨Int.add_comm _ _, trivial⟩

/-- Witness of C19, on two states that both have `all_valid = true`, so that
both orders reach `Merge`: digests `[1, 2, 3]` and `[4, 5]`, counts 3 and 2,
`min_count = 5`. The merged digests differ with the order, the null test fails
in both orders, and the counts (5) and flags agree. A second pair merges a fresh
state, whose digest is empty, with a state that holds three values. -/
theorem merge_order_keeps_nullness_witness :
    ((sampleState opts5).all_valid = true ∧ (otherState opts5).all_valid = true
      ∧ (MergeFrom recDigest (sampleState opts5) (otherState opts5)).2.tdigest = [1, 2, 3, 4, 5]
      ∧ (MergeFrom recDigest (otherState opts5) (sampleState opts5)).2.tdigest = [4, 5, 1, 2, 3]
      ∧ nullGate recDigest (MergeFrom recDigest (sampleState opts5) (otherState opts5)).2 = false
      ∧ (MergeFrom recDigest (sampleState opts5) (otherState opts5)).2.count = 5)
      ∧ (nullGate recDigest (MergeFrom recDigest (sampleState opts5) (otherState opts5)).2
          = nullGate recDigest (MergeFrom recDigest (otherState opts5) (sampleState opts5)).2
        ∧ (Finalize recDigest (MergeFrom recDigest (sampleState opts5) (otherState opts5)).2
            okCtx none).1
          = (Finalize recDigest (MergeFrom recDigest (otherState opts5) (sampleState opts5)).2
              okCtx none).1
        ∧ ((Finalize recDigest (MergeFrom recDigest (sampleState opts5) (otherState opts5)).2
              okCtx none).2 = some (OutData.allNull (sampleState opts5).options.q.length)
            ↔ (Finalize recDigest (MergeFrom recDigest (otherState opts5) (sampleState opts5)).2
              okCtx none).2 = some (OutData.allNull (sampleState opts5).options.q.length))
        ∧ (MergeFrom recDigest (sampleState opts5) (otherState opts5)).2.count
            = (MergeFrom recDigest (otherState opts5) (sampleState opts5)).2.count
        ∧ (MergeFrom recDigest (sampleState opts5) (otherState opts5)).2.all_valid
            = (MergeFrom recDigest (otherState opts5) (sampleState opts5)).2.all_valid)
      ∧ nullGate recDigest (MergeFrom recDigest (mk_from recDigest opts0) (sampleState opts0)).2
          = nullGate recDigest (MergeFrom recDigest (sampleState opts0)
              (mk_from recDigest opts0)).2 :=
  ⟨⟨rfl, rfl, by decide, by decide, by decide, by decide⟩,
    ⟨(merge_order_keeps_nullness recDigest (sampleState opts5) (otherState opts5) okCtx none rfl
        (fun x y => by cases x <;> cases y <;> rfl)).1,
      (merge_order_keeps_nullness recDigest (sampleState opts5) (otherState opts5) okCtx none rfl
        (fun x y => by cases x <;> cases y <;> rfl)).2.1,
      (merge_order_keeps_nullness recDigest (sampleState opts5) (otherState opts5) okCtx none rfl
        (fun x y => by cases x <;> cases y <;> rfl)).2.2.1,
      ((merge_order_keeps_nullness recDigest (sampleState opts5) (otherState opts5) okCtx none rfl
        (fun x y => by cases x <;> cases y <;> rfl)).2.2.2 rfl rfl).1,
      ((merge_order_keeps_nullness recDigest (sampleState opts5) (otherState opts5) okCtx none rfl
        (fun x y => by cases x <;> cases y <;> rfl)).2.2.2 rfl rfl).2⟩,
    (merge_order_keeps_nullness recDigest (mk_from recDigest opts0) (sampleState opts0)
      okCtx none rfl (fun x y => by cases x <;> cases y <;> rfl)).1⟩

end RelationalClaims

end Arrow
